import Mathlib

/-!
Shallow embedding of the crypto-trading-panel backtesting core
(market simulator, strategy executor, condition evaluator, backtest
engine, OHLCV aggregator and the EMA/ATR indicator routines), together
with theorems settling the frozen claims about it.

Modelling conventions:
* JavaScript numbers are modelled as exact rationals; ms timestamps as
  integers.  JS truthiness tests on optional numbers (`if (x)`) are
  modelled by `truthy` (present and non-zero); NaN corner cases that a
  rational model cannot represent are noted at the definition concerned.
* `crypto.randomUUID` draws are modelled by an ambient stream
  `ids : Nat -> Nat` consumed at a monotonically increasing counter;
  records store the counter index at which their id was drawn, and the
  id value itself is attached when a record is rendered for output.
* `Date.now()` calls inside signal generation are modelled by a stream
  `nows : Nat -> Int` indexed by the candle position.
-/

namespace CryptoPanel

/-- OHLCV candle (src types/ohlcv.ts).  The source field `open` is a Lean
keyword and is rendered here as `opn`. -/
structure OHLCV where
  timestamp : Int
  opn : ℚ
  high : ℚ
  low : ℚ
  close : ℚ
  volume : ℚ
  deriving DecidableEq, Repr

instance : Inhabited OHLCV := ⟨⟨0, 0, 0, 0, 0, 0⟩⟩

/-- Timeframe tags (src types/ohlcv.ts). -/
inductive Timeframe where
  | m1 | m3 | m5 | m15 | m30 | h1 | h2 | h4 | h6 | h12 | d1 | w1 | mo1
  deriving DecidableEq, Repr

/-- TIMEFRAME_TO_MINUTES (src types/ohlcv.ts). -/
def TIMEFRAME_TO_MINUTES : Timeframe → Int
  | .m1 => 1
  | .m3 => 3
  | .m5 => 5
  | .m15 => 15
  | .m30 => 30
  | .h1 => 60
  | .h2 => 120
  | .h4 => 240
  | .h6 => 360
  | .h12 => 720
  | .d1 => 1440
  | .w1 => 10080
  | .mo1 => 43200

/-- timeframeToMs (src types/ohlcv.ts). -/
def timeframeToMs (tf : Timeframe) : Int :=
  TIMEFRAME_TO_MINUTES tf * 60 * 1000

/-! ## OHLCV aggregator (src ohlcv-aggregator) -/

/-- aggregatePeriod (src ohlcv-aggregator): reduce one group of candles to
a single candle stamped with the group start. -/
def aggregatePeriod (candles : List OHLCV) (periodStart : Int) : OHLCV :=
  { timestamp := periodStart
    opn := ((candles.head?).map (fun c => c.opn)).getD 0
    close := ((candles.getLast?).map (fun c => c.close)).getD 0
    high := ((candles.map (fun c => c.high)).max?).getD 0
    low := ((candles.map (fun c => c.low)).min?).getD 0
    volume := (candles.map (fun c => c.volume)).sum }

/-- The candle's target-period start, `Math.floor(ts / targetMs) * targetMs`. -/
def periodKey (targetMs : Int) (c : OHLCV) : Int :=
  c.timestamp.fdiv targetMs * targetMs

/-- The accumulator loop of aggregateOHLCV (src ohlcv-aggregator): walk the
candles keeping the current period start and the candles collected for it,
flushing a group whenever the period changes. -/
def aggLoop (targetMs : Int) : List OHLCV → List OHLCV → Int → List OHLCV
  | [], acc, cur => if acc.isEmpty then [] else [aggregatePeriod acc cur]
  | c :: rest, acc, cur =>
      let k := periodKey targetMs c
      if k ≠ cur ∧ ¬ acc.isEmpty then
        aggregatePeriod acc cur :: aggLoop targetMs rest [c] k
      else
        aggLoop targetMs rest (acc ++ [c]) cur

/-- aggregateOHLCV (src ohlcv-aggregator). -/
def aggregateOHLCV (data : List OHLCV) (sourceTimeframe targetTimeframe : Timeframe) :
    List OHLCV :=
  match data with
  | [] => []
  | d :: _ =>
      let sourceMs := timeframeToMs sourceTimeframe
      let targetMs := timeframeToMs targetTimeframe
      if targetMs ≤ sourceMs then data
      else aggLoop targetMs data [] (periodKey targetMs d)

/-- Modelled from the spec (section 4.7): the per-group reduction of the
aggregation law, stated over consecutive same-key runs (for a
timestamp-sorted series the same-key groups are exactly contiguous runs). -/
def specGroupCandle (group : List OHLCV) (groupStart : Int) : OHLCV :=
  { timestamp := groupStart
    opn := ((group.head?).map (fun c => c.opn)).getD 0
    close := ((group.getLast?).map (fun c => c.close)).getD 0
    high := ((group.map (fun c => c.high)).max?).getD 0
    low := ((group.map (fun c => c.low)).min?).getD 0
    volume := (group.map (fun c => c.volume)).sum }

theorem length_dropWhile_le {α : Type} (p : α → Bool) :
    ∀ l : List α, (l.dropWhile p).length ≤ l.length := by
  intro l
  induction l with
  | nil => simp [List.dropWhile]
  | cons a t ih =>
      by_cases h : p a
      · simpa [List.dropWhile, h] using Nat.le_succ_of_le ih
      · simp [List.dropWhile, h]

/-- Modelled from the spec (section 4.7): group the series by
`floor(ts / targetMs) * targetMs` (consecutive runs of equal key) and emit
one reduced candle per group, stamped with the group start. -/
def specAggregate (targetMs : Int) : List OHLCV → List OHLCV
  | [] => []
  | c :: rest =>
      let k := periodKey targetMs c
      specGroupCandle (c :: rest.takeWhile (fun x => periodKey targetMs x == k)) k ::
        specAggregate targetMs (rest.dropWhile (fun x => periodKey targetMs x == k))
termination_by l => l.length
decreasing_by
  simp only [List.length_cons]
  exact Nat.lt_succ_of_le (length_dropWhile_le _ _)

/-! ## EMA and ATR (src indicators/ema.ts, indicators/sma.ts) -/

/-- calculateEMA (src indicators/ema.ts): when enough values are present,
`period - 1` leading nulls, then the SMA seed, then the exponential
recurrence `ema := (x - ema) * multiplier + ema` with
`multiplier = 2 / (period + 1)`. -/
def calculateEMA (values : List ℚ) (period : ℕ) : List (Option ℚ) :=
  if values.length < period then values.map (fun _ => none)
  else
    let multiplier : ℚ := 2 / (period + 1)
    let seed : ℚ := (values.take period).sum / period
    List.replicate (period - 1) none ++
      (((values.drop period).scanl (fun ema x => (x - ema) * multiplier + ema) seed).map some)

/-- EMAIndicator.getRequiredPeriods (src indicators/ema.ts):
`Math.ceil(period * 2) || 40`, i.e. twice the period with a fallback of 40
for a zero period. -/
def EMAIndicator.getRequiredPeriods (period : ℕ) : ℕ :=
  if period * 2 = 0 then 40 else period * 2

/-- calculateTrueRange (src indicators/sma.ts). -/
def calculateTrueRange (current : OHLCV) (previous : Option OHLCV) : ℚ :=
  match previous with
  | none => current.high - current.low
  | some p =>
      max (current.high - current.low) (max |current.high - p.close| |current.low - p.close|)

/-- calculateATR (src indicators/sma.ts): true ranges, SMA seed after
`period` values, then Wilder smoothing. -/
def calculateATR (data : List OHLCV) (period : ℕ) : List (Option ℚ) :=
  if data.length < period + 1 then data.map (fun _ => none)
  else
    let trueRanges : List ℚ :=
      match data with
      | [] => []
      | d :: rest =>
          (d.high - d.low) ::
            (rest.zip data).map (fun cp => calculateTrueRange cp.1 (some cp.2))
    let seed : ℚ := (trueRanges.take period).sum / period
    List.replicate (period - 1) none ++
      (((trueRanges.drop period).scanl
          (fun (atr tr : ℚ) => (atr * ((period : ℚ) - 1) + tr) / period) seed).map some)

/-! ## Condition evaluator (src engine/condition-evaluator.ts) -/

/-- Association-list rendering of a TS `Record`: lookup returns the first
binding for the key. -/
def recLookup {α : Type} (m : List (String × α)) (k : String) : Option α :=
  (m.find? (fun p => p.1 == k)).map (fun p => p.2)

/-- The TS `key in record` test. -/
def recHas {α : Type} (m : List (String × α)) (k : String) : Bool :=
  (m.find? (fun p => p.1 == k)).isSome

/-- An indicator value in an evaluation context: a scalar or a multi-line
record of per-line values. -/
inductive IndVal where
  | scalar : ℚ → IndVal
  | multi : List (String × Option ℚ) → IndVal
  deriving DecidableEq, Repr

/-- The price block of an evaluation context. -/
structure PriceCtx where
  opn : ℚ
  high : ℚ
  low : ℚ
  close : ℚ
  volume : ℚ
  deriving DecidableEq, Repr

/-- The indicator/variable/price part of an evaluation context (what the
source stores as the `previous` sub-context). -/
structure CtxBase where
  indicators : List (String × Option IndVal)
  vars : List (String × Option ℚ)
  price : PriceCtx
  deriving DecidableEq, Repr

/-- EvaluationContext (src engine/condition-evaluator.ts). -/
structure EvaluationContext extends CtxBase where
  previous : Option CtxBase
  deriving DecidableEq, Repr

/-- Lookup of a price field by its (already lowercased) name, with `price`
mapped to `close` by the caller. -/
def priceField (p : PriceCtx) (key : String) : ℚ :=
  if key == "open" then p.opn
  else if key == "high" then p.high
  else if key == "low" then p.low
  else if key == "close" then p.close
  else p.volume

/-- Model of the JS `parseFloat` fallback of resolveValue, restricted to
plain decimal literals (optional sign, digits, optional fraction); the
exponent form never occurs in strategy references. -/
def parseFloatJS (s : String) : Option ℚ :=
  let cs := s.data.dropWhile (fun c => c == ' ')
  let signed : ℚ × List Char :=
    match cs with
    | '-' :: t => (-1, t)
    | '+' :: t => (1, t)
    | _ => (1, cs)
  let intPart := signed.2.takeWhile (fun c => c.isDigit)
  let rest := signed.2.dropWhile (fun c => c.isDigit)
  let fracPart : List Char :=
    match rest with
    | '.' :: t => t.takeWhile (fun c => c.isDigit)
    | _ => []
  if intPart.isEmpty ∧ fracPart.isEmpty then none
  else
    let iv : ℕ := intPart.foldl (fun a c => a * 10 + (c.toNat - 48)) 0
    let fv : ℕ := fracPart.foldl (fun a c => a * 10 + (c.toNat - 48)) 0
    some (signed.1 * ((iv : ℚ) + (fv : ℚ) / ((10 : ℚ) ^ fracPart.length)))

/-- resolveValue (src engine/condition-evaluator.ts): numbers resolve to
themselves; otherwise resolve through (in order) price fields, dotted
multi-line indicator access, scalar/first-line indicator access, variables,
and a final parseFloat attempt.  A present-but-null indicator or variable
falls through exactly as the sequential `return`s of the source do. -/
def resolveValue (ref : String ⊕ ℚ) (context : EvaluationContext)
    (usePrevious : Bool) : Option ℚ :=
  match ref with
  | Sum.inr n => some n
  | Sum.inl s =>
      let ctx : CtxBase :=
        if usePrevious then
          match context.previous with
          | some p => p
          | none => context.toCtxBase
        else context.toCtxBase
      let ls := s.toLower
      if ["open", "high", "low", "close", "volume", "price"].contains ls then
        some (priceField ctx.price (if ls == "price" then "close" else ls))
      else
        let dotted : Option (Option ℚ) :=
          if s.contains '.' then
            let parts := s.splitOn "."
            let indicatorId := parts.getD 0 ""
            let property := parts.getD 1 ""
            match recLookup ctx.indicators indicatorId with
            | some (some (IndVal.multi lines)) =>
                if recHas lines property then some (recLookup lines property |>.join)
                else none
            | _ => none
          else none
        match dotted with
        | some v => v
        | none =>
            let single : Option (Option ℚ) :=
              if recHas ctx.indicators s then
                match recLookup ctx.indicators s with
                | some (some (IndVal.scalar v)) => some (some v)
                | some (some (IndVal.multi lines)) =>
                    -- the source returns the first line's value (or
                    -- undefined when the record is empty); both are returns
                    some (match lines.head? with
                          | some kv => kv.2
                          | none => none)
                | _ => none
              else none
            match single with
            | some v => v
            | none =>
                if recHas ctx.vars s then (recLookup ctx.vars s).join
                else parseFloatJS s

/-- ConditionType (src types/strategy.ts). -/
inductive ConditionType where
  | greater_than | less_than | equals | not_equals | between
  | crosses_above | crosses_below | is_rising | is_falling
  deriving DecidableEq, Repr

/-- Condition (src types/strategy.ts); `params` carries the numeric
`min`/`max` parameters used by `between`. -/
structure Condition where
  type : ConditionType
  left : String
  right : String ⊕ ℚ
  params : Option (List (String × ℚ))
  deriving DecidableEq, Repr

/-- evaluateBetween (src engine/condition-evaluator.ts): ratio test when a
non-null, non-zero right value is present, plain range test otherwise. -/
def evaluateBetween (leftValue : ℚ) (rightValue : Option ℚ)
    (params : Option (List (String × ℚ))) : Bool :=
  match params with
  | none => false
  | some ps =>
      match recLookup ps "min", recLookup ps "max" with
      | some mn, some mx =>
          match rightValue with
          | some r =>
              if r ≠ 0 then decide (leftValue / r ≥ mn ∧ leftValue / r ≤ mx)
              else decide (leftValue ≥ mn ∧ leftValue ≤ mx)
          | none => decide (leftValue ≥ mn ∧ leftValue ≤ mx)
      | _, _ => false

/-- evaluateCrossesAbove (src engine/condition-evaluator.ts). -/
def evaluateCrossesAbove (leftRef : String ⊕ ℚ) (rightRef : String ⊕ ℚ)
    (context : EvaluationContext) : Bool :=
  match context.previous with
  | none => false
  | some _ =>
      match resolveValue leftRef context false, resolveValue rightRef context false,
            resolveValue leftRef context true, resolveValue rightRef context true with
      | some currentLeft, some currentRight, some prevLeft, some prevRight =>
          decide (prevLeft ≤ prevRight ∧ currentLeft > currentRight)
      | _, _, _, _ => false

/-- evaluateCrossesBelow (src engine/condition-evaluator.ts). -/
def evaluateCrossesBelow (leftRef : String ⊕ ℚ) (rightRef : String ⊕ ℚ)
    (context : EvaluationContext) : Bool :=
  match context.previous with
  | none => false
  | some _ =>
      match resolveValue leftRef context false, resolveValue rightRef context false,
            resolveValue leftRef context true, resolveValue rightRef context true with
      | some currentLeft, some currentRight, some prevLeft, some prevRight =>
          decide (prevLeft ≥ prevRight ∧ currentLeft < currentRight)
      | _, _, _, _ => false

/-- evaluateIsRising (src engine/condition-evaluator.ts). -/
def evaluateIsRising (ref : String ⊕ ℚ) (context : EvaluationContext) : Bool :=
  match context.previous with
  | none => false
  | some _ =>
      match resolveValue ref context false, resolveValue ref context true with
      | some current, some prev => decide (current > prev)
      | _, _ => false

/-- evaluateIsFalling (src engine/condition-evaluator.ts). -/
def evaluateIsFalling (ref : String ⊕ ℚ) (context : EvaluationContext) : Bool :=
  match context.previous with
  | none => false
  | some _ =>
      match resolveValue ref context false, resolveValue ref context true with
      | some current, some prev => decide (current < prev)
      | _, _ => false

/-- evaluateCondition (src engine/condition-evaluator.ts). -/
def evaluateCondition (condition : Condition) (context : EvaluationContext) : Bool :=
  let leftValue := resolveValue (Sum.inl condition.left) context false
  let rightValue := resolveValue condition.right context false
  match leftValue with
  | none => false
  | some lv =>
      match condition.type with
      | .greater_than =>
          match rightValue with
          | some rv => decide (lv > rv)
          | none => false
      | .less_than =>
          match rightValue with
          | some rv => decide (lv < rv)
          | none => false
      | .equals =>
          match rightValue with
          | some rv => decide (lv = rv)
          | none => false
      | .not_equals =>
          -- JS `leftValue !== rightValue`: a non-null left is distinct from
          -- a null right, so a null right yields true here
          match rightValue with
          | some rv => decide (lv ≠ rv)
          | none => true
      | .between => evaluateBetween lv rightValue condition.params
      | .crosses_above =>
          evaluateCrossesAbove (Sum.inl condition.left) condition.right context
      | .crosses_below =>
          evaluateCrossesBelow (Sum.inl condition.left) condition.right context
      | .is_rising => evaluateIsRising (Sum.inl condition.left) context
      | .is_falling => evaluateIsFalling (Sum.inl condition.left) context

/-- The AND/OR operator of a condition group. -/
inductive GroupOp where
  | AND | OR
  deriving DecidableEq, Repr

/-- A node of the condition tree: either a single condition or a nested
group (src types/strategy.ts, `Condition | ConditionGroup`). -/
inductive CondNode where
  | leaf : Condition → CondNode
  | group : GroupOp → List CondNode → CondNode

/-- ConditionGroup (src types/strategy.ts). -/
structure ConditionGroup where
  operator : GroupOp
  conditions : List CondNode

/-- The recursive body of evaluateGroup (src engine/condition-evaluator.ts):
an empty group is true; otherwise children are evaluated and combined with
AND (all) or OR (any). -/
def evalNode : CondNode → EvaluationContext → Bool
  | .leaf c, context => evaluateCondition c context
  | .group op cs, context =>
      if cs.isEmpty then true
      else
        let results := cs.attach.map (fun x => evalNode x.1 context)
        match op with
        | .AND => results.all id
        | .OR => results.any id
termination_by n _ => sizeOf n
decreasing_by
  have hlt := List.sizeOf_lt_of_mem x.2
  simp only [CondNode.group.sizeOf_spec]
  omega

/-- evaluateGroup (src engine/condition-evaluator.ts). -/
def evaluateGroup (group : ConditionGroup) (context : EvaluationContext) : Bool :=
  evalNode (CondNode.group group.operator group.conditions) context

/-! ## Strategy schema types (src types/strategy.ts) -/

/-- SignalDefinition (src types/strategy.ts). -/
structure SignalDefinition where
  conditions : ConditionGroup
  filters : Option ConditionGroup

/-- ExitReason (src types/strategy.ts). -/
inductive ExitReason where
  | stop_loss | take_profit | trailing_stop | signal | manual | timeout
  deriving DecidableEq, Repr

/-- PositionSide. -/
inductive PositionSide where
  | long | short
  deriving DecidableEq, Repr

/-- Stop-loss type tags (src types/strategy.ts). -/
inductive SLType where
  | fixed_percent | fixed_price | atr_multiple | pivot
  deriving DecidableEq, Repr

/-- StopLossConfig (src types/strategy.ts). -/
structure StopLossConfig where
  type : SLType
  value : ℚ
  atrPeriod : Option ℕ
  deriving DecidableEq, Repr

/-- Take-profit type tags (src types/strategy.ts). -/
inductive TPType where
  | fixed_percent | fixed_price | atr_multiple | risk_reward | pivot
  deriving DecidableEq, Repr

/-- TakeProfitConfig (src types/strategy.ts). -/
structure TakeProfitConfig where
  type : TPType
  value : ℚ
  atrPeriod : Option ℕ
  deriving DecidableEq, Repr

/-- TrailingStopConfig (src types/strategy.ts). -/
structure TrailingStopConfig where
  enabled : Bool
  activationPercent : Option ℚ
  trailPercent : Option ℚ
  atrMultiple : Option ℚ
  deriving DecidableEq, Repr

/-- ExitSignalDefinition (src types/strategy.ts). -/
structure ExitSignalDefinition where
  stopLoss : Option StopLossConfig
  takeProfit : Option TakeProfitConfig
  trailingStop : Option TrailingStopConfig
  signalExit : Option SignalDefinition
  timeout : Option ℚ

/-- The entry-signal block of StrategySchema (src types/strategy.ts). -/
structure EntrySignals where
  long : Option SignalDefinition
  short : Option SignalDefinition

/-- RiskManagementConfig (src types/strategy.ts); only the fields the
engine reads are modelled. -/
structure RiskManagementConfig where
  riskPerTrade : ℚ
  maxPositionSize : ℚ
  maxOpenPositions : ℕ
  leverage : Option ℚ
  deriving DecidableEq, Repr

/-- IndicatorDefinition (src types/strategy.ts); the parameter record maps
names to numbers or strings. -/
structure IndicatorDefinition where
  id : String
  type : String
  params : List (String × (ℚ ⊕ String))

/-- ComputedVariable (src types/strategy.ts). -/
structure ComputedVariable where
  id : String
  expression : String

/-- The dataRequirements block of StrategySchema (src types/strategy.ts). -/
structure DataRequirements where
  primaryTimeframe : Timeframe
  additionalTimeframes : List Timeframe
  lookbackPeriods : ℕ
  symbols : List String

/-- StrategySchema (src types/strategy.ts); metadata fields that the
engine and executor never read are omitted. -/
structure StrategySchema where
  id : String
  version : String
  name : String
  dataRequirements : DataRequirements
  indicators : List IndicatorDefinition
  computedVariables : List ComputedVariable
  entrySignals : EntrySignals
  exitSignals : ExitSignalDefinition
  riskManagement : RiskManagementConfig

/-! ## Trading types (src types/trading.ts) -/

/-- SignalType (src types/trading.ts). -/
inductive SignalType where
  | entry_long | entry_short | exit_long | exit_short | none
  deriving DecidableEq, Repr

/-- Signal (src types/trading.ts); the metadata field is never read. -/
structure Signal where
  type : SignalType
  price : ℚ
  timestamp : Int
  reason : Option String
  deriving DecidableEq, Repr

/-- The trailing-stop state stored inside a Position (src types/trading.ts). -/
structure TrailingStopState where
  active : Bool
  highestPrice : Option ℚ
  lowestPrice : Option ℚ
  currentStop : Option ℚ
  activationPercent : Option ℚ
  trailPercent : Option ℚ
  deriving DecidableEq, Repr

/-- Position (src types/trading.ts).  The source id is a UUID string drawn
from `crypto.randomUUID`; `idIdx` stores the index of that draw in the
ambient uuid stream (see the file header). -/
structure Position where
  idIdx : ℕ
  symbol : String
  side : PositionSide
  entryPrice : ℚ
  size : ℚ
  entryTime : Int
  stopLoss : Option ℚ
  takeProfit : Option ℚ
  trailingStop : Option TrailingStopState
  unrealizedPnl : Option ℚ
  unrealizedPnlPercent : Option ℚ
  deriving DecidableEq, Repr

/-- Trade (src types/trading.ts), with `idIdx` in place of the drawn UUID
string exactly as in Position. -/
structure Trade where
  idIdx : ℕ
  symbol : String
  side : PositionSide
  entryPrice : ℚ
  exitPrice : ℚ
  size : ℚ
  entryTime : Int
  exitTime : Int
  pnl : ℚ
  pnlPercent : ℚ
  commission : ℚ
  netPnl : ℚ
  exitReason : ExitReason
  holdingTime : Int
  deriving DecidableEq, Repr

/-- Portfolio (src types/trading.ts). -/
structure Portfolio where
  initialCapital : ℚ
  currentCapital : ℚ
  availableCapital : ℚ
  equity : ℚ
  openPositions : List Position
  totalPnl : ℚ
  totalPnlPercent : ℚ
  totalCommission : ℚ
  deriving DecidableEq, Repr

/-- EquityPoint (src types/trading.ts). -/
structure EquityPoint where
  timestamp : Int
  equity : ℚ
  drawdown : ℚ
  drawdownPercent : ℚ
  openPositions : ℕ
  deriving DecidableEq, Repr

/-- The slice of BacktestConfig (src types/backtest.ts) that the simulator
and engine read. -/
structure BacktestConfig where
  startDate : Int
  endDate : Int
  initialCapital : ℚ
  commissionPercent : ℚ
  slippagePercent : ℚ
  deriving DecidableEq, Repr

/-! ## Market simulator (src engine/market-simulator.ts) -/

/-- JS truthiness of an optional number: present and non-zero. -/
def truthy : Option ℚ → Bool
  | none => false
  | some v => decide (v ≠ 0)

/-- The simulator state: portfolio, emitted trades, and the position of the
next `crypto.randomUUID` draw in the ambient uuid stream.  The source field
`pendingOrders` is never populated and is omitted. -/
structure SimState where
  portfolio : Portfolio
  trades : List Trade
  uuidCounter : ℕ
  deriving DecidableEq, Repr

/-- The portfolio produced by the simulator constructor and by reset
(src engine/market-simulator.ts). -/
def initPortfolio (config : BacktestConfig) : Portfolio :=
  { initialCapital := config.initialCapital
    currentCapital := config.initialCapital
    availableCapital := config.initialCapital
    equity := config.initialCapital
    openPositions := []
    totalPnl := 0
    totalPnlPercent := 0
    totalCommission := 0 }

/-- applySlippage (src engine/market-simulator.ts). -/
def applySlippage (config : BacktestConfig) (price : ℚ) (isBuy : Bool) : ℚ :=
  let slippage := price * config.slippagePercent
  if isBuy then price + slippage else price - slippage

/-- calculateCommission (src engine/market-simulator.ts). -/
def calculateCommission (config : BacktestConfig) (value : ℚ) : ℚ :=
  value * config.commissionPercent

/-- calculateStopLoss (src engine/market-simulator.ts).  The `pivot` tag
falls into the default case and yields no stop; `atr_multiple` without a
truthy ATR leaves the distance at zero, so the returned stop equals the
entry price. -/
def calculateStopLoss (entryPrice : ℚ) (side : PositionSide)
    (config : Option StopLossConfig) (atrValue : Option ℚ) : Option ℚ :=
  match config with
  | none => none
  | some cfg =>
      match cfg.type with
      | .fixed_price => some cfg.value
      | .pivot => none
      | .fixed_percent =>
          let slDistance := entryPrice * (cfg.value / 100)
          some (match side with
                | .long => entryPrice - slDistance
                | .short => entryPrice + slDistance)
      | .atr_multiple =>
          let slDistance := if truthy atrValue then atrValue.getD 0 * cfg.value else 0
          some (match side with
                | .long => entryPrice - slDistance
                | .short => entryPrice + slDistance)

/-- calculateTakeProfit (src engine/market-simulator.ts). -/
def calculateTakeProfit (entryPrice : ℚ) (side : PositionSide)
    (config : Option TakeProfitConfig) (stopLoss : Option ℚ)
    (atrValue : Option ℚ) : Option ℚ :=
  match config with
  | none => none
  | some cfg =>
      match cfg.type with
      | .fixed_price => some cfg.value
      | .pivot => none
      | .fixed_percent =>
          let tpDistance := entryPrice * (cfg.value / 100)
          some (match side with
                | .long => entryPrice + tpDistance
                | .short => entryPrice - tpDistance)
      | .atr_multiple =>
          let tpDistance := if truthy atrValue then atrValue.getD 0 * cfg.value else 0
          some (match side with
                | .long => entryPrice + tpDistance
                | .short => entryPrice - tpDistance)
      | .risk_reward =>
          let tpDistance :=
            if truthy stopLoss then |entryPrice - stopLoss.getD 0| * cfg.value else 0
          some (match side with
                | .long => entryPrice + tpDistance
                | .short => entryPrice - tpDistance)

/-- The side an entry signal opens (src openPosition). -/
def signalSide (signal : Signal) : PositionSide :=
  if signal.type = SignalType.entry_long then PositionSide.long else PositionSide.short

/-- The slippage-adjusted entry price of openPosition. -/
def openEntryPrice (config : BacktestConfig) (signal : Signal) : ℚ :=
  applySlippage config signal.price (signalSide signal = PositionSide.long)

/-- The stop-loss computed inside openPosition. -/
def openStopLoss (config : BacktestConfig) (signal : Signal)
    (stopLossConfig : Option StopLossConfig) (atrValue : Option ℚ) : Option ℚ :=
  calculateStopLoss (openEntryPrice config signal) (signalSide signal)
    stopLossConfig atrValue

/-- The risk per unit of openPosition: distance to the (truthy) stop, or
2 percent of the entry when there is none. -/
def openRiskPerUnit (config : BacktestConfig) (signal : Signal)
    (stopLossConfig : Option StopLossConfig) (atrValue : Option ℚ) : ℚ :=
  if truthy (openStopLoss config signal stopLossConfig atrValue) then
    |openEntryPrice config signal - (openStopLoss config signal stopLossConfig atrValue).getD 0|
  else openEntryPrice config signal * (2 / 100)

/-- The risk-based size of openPosition. -/
def openSize (config : BacktestConfig) (signal : Signal)
    (stopLossConfig : Option StopLossConfig) (riskPercent : ℚ)
    (atrValue : Option ℚ) (s : SimState) : ℚ :=
  s.portfolio.currentCapital * (riskPercent / 100) /
    openRiskPerUnit config signal stopLossConfig atrValue

/-- The notional value of the position openPosition is about to open. -/
def openPositionValue (config : BacktestConfig) (signal : Signal)
    (stopLossConfig : Option StopLossConfig) (riskPercent : ℚ)
    (atrValue : Option ℚ) (s : SimState) : ℚ :=
  openSize config signal stopLossConfig riskPercent atrValue s *
    openEntryPrice config signal

/-- The position record openPosition pushes into the portfolio. -/
def newPosition (config : BacktestConfig) (signal : Signal) (candle : OHLCV)
    (symbol : String) (stopLossConfig : Option StopLossConfig)
    (takeProfitConfig : Option TakeProfitConfig)
    (trailingStopConfig : Option TrailingStopConfig)
    (riskPercent : ℚ) (atrValue : Option ℚ) (s : SimState) : Position :=
  { idIdx := s.uuidCounter
    symbol := symbol
    side := signalSide signal
    entryPrice := openEntryPrice config signal
    size := openSize config signal stopLossConfig riskPercent atrValue s
    entryTime := candle.timestamp
    stopLoss := openStopLoss config signal stopLossConfig atrValue
    takeProfit :=
      calculateTakeProfit (openEntryPrice config signal) (signalSide signal)
        takeProfitConfig (openStopLoss config signal stopLossConfig atrValue) atrValue
    trailingStop :=
      match trailingStopConfig with
      | some tsc =>
          if tsc.enabled then
            some { active := false
                   highestPrice :=
                     if signalSide signal = PositionSide.long then
                       some (openEntryPrice config signal)
                     else none
                   lowestPrice :=
                     if signalSide signal = PositionSide.short then
                       some (openEntryPrice config signal)
                     else none
                   currentStop := none
                   activationPercent := some (tsc.activationPercent.getD 2)
                   trailPercent := some (tsc.trailPercent.getD 1) }
          else none
      | none => none
    unrealizedPnl := none
    unrealizedPnlPercent := none }

/-- openPosition (src engine/market-simulator.ts).  A non-entry signal and
an unaffordable position return null with the state untouched; the JS
division `riskAmount / 0` produces an infinite size that always fails the
affordability check, modelled by the explicit `openRiskPerUnit = 0`
rejection (the NaN corner `riskAmount = 0 ∧ riskPerUnit = 0` is not
representable in an exact-rational model and is treated as the same
rejection). -/
def openPosition (config : BacktestConfig) (signal : Signal) (candle : OHLCV)
    (symbol : String) (stopLossConfig : Option StopLossConfig)
    (takeProfitConfig : Option TakeProfitConfig)
    (trailingStopConfig : Option TrailingStopConfig)
    (riskPercent : ℚ) (atrValue : Option ℚ) (s : SimState) :
    Option Position × SimState :=
  if signal.type ≠ SignalType.entry_long ∧ signal.type ≠ SignalType.entry_short then
    (none, s)
  else if openRiskPerUnit config signal stopLossConfig atrValue = 0 then (none, s)
  else if openPositionValue config signal stopLossConfig riskPercent atrValue s >
            s.portfolio.availableCapital then (none, s)
  else
    let position := newPosition config signal candle symbol stopLossConfig
      takeProfitConfig trailingStopConfig riskPercent atrValue s
    let commission := calculateCommission config
      (openPositionValue config signal stopLossConfig riskPercent atrValue s)
    (some position,
     { s with
         uuidCounter := s.uuidCounter + 1
         portfolio :=
           { s.portfolio with
               totalCommission := s.portfolio.totalCommission + commission
               openPositions := s.portfolio.openPositions ++ [position]
               availableCapital :=
                 s.portfolio.availableCapital -
                   openPositionValue config signal stopLossConfig riskPercent atrValue s } })

/-- closePosition (src engine/market-simulator.ts): builds the trade,
updates capital, P&L and commission, and appends the trade.  It does not
touch the open-position list. -/
def closePosition (config : BacktestConfig) (position : Position)
    (exitPrice : ℚ) (exitTime : Int) (exitReason : ExitReason)
    (s : SimState) : Trade × SimState :=
  let finalExitPrice :=
    applySlippage config exitPrice (position.side = PositionSide.short)
  let priceDiff :=
    match position.side with
    | .long => finalExitPrice - position.entryPrice
    | .short => position.entryPrice - finalExitPrice
  let pnl := priceDiff * position.size
  let pnlPercent := priceDiff / position.entryPrice * 100
  let positionValue := position.size * finalExitPrice
  let commission := calculateCommission config positionValue
  let netPnl := pnl - commission
  let trade : Trade :=
    { idIdx := s.uuidCounter
      symbol := position.symbol
      side := position.side
      entryPrice := position.entryPrice
      exitPrice := finalExitPrice
      size := position.size
      entryTime := position.entryTime
      exitTime := exitTime
      pnl := pnl
      pnlPercent := pnlPercent
      commission := commission
      netPnl := netPnl
      exitReason := exitReason
      holdingTime := exitTime - position.entryTime }
  (trade,
   { s with
       uuidCounter := s.uuidCounter + 1
       trades := s.trades ++ [trade]
       portfolio :=
         { s.portfolio with
             currentCapital := s.portfolio.currentCapital + netPnl
             availableCapital := s.portfolio.availableCapital + positionValue
             totalPnl := s.portfolio.totalPnl + netPnl
             totalPnlPercent :=
               (s.portfolio.totalPnl + netPnl) / s.portfolio.initialCapital * 100
             totalCommission := s.portfolio.totalCommission + commission } })

/-- The stop-loss trigger of checkPositionExits: a (truthy) stop level is
hit when the candle's low reaches it for a long, or its high for a short. -/
def slHit (position : Position) (candle : OHLCV) : Bool :=
  truthy position.stopLoss &&
    (if position.side = PositionSide.long then
       decide (candle.low ≤ position.stopLoss.getD 0)
     else decide (candle.high ≥ position.stopLoss.getD 0))

/-- The current trailing-stop level stored in a position (0 when absent;
only read under a truthiness guard). -/
def trailingStopLevel (position : Position) : ℚ :=
  ((position.trailingStop.map (fun ts => ts.currentStop)).join).getD 0

/-- The trailing-stop trigger of checkPositionExits: the trailing stop must
be active with a truthy level, hit by low (long) or high (short). -/
def tsHit (position : Position) (candle : OHLCV) : Bool :=
  (match position.trailingStop with
   | some ts => ts.active && truthy ts.currentStop
   | none => false) &&
    (if position.side = PositionSide.long then
       decide (candle.low ≤ trailingStopLevel position)
     else decide (candle.high ≥ trailingStopLevel position))

/-- The take-profit trigger of checkPositionExits: a (truthy) take-profit
level is hit by the candle's high for a long, or its low for a short. -/
def tpHit (position : Position) (candle : OHLCV) : Bool :=
  truthy position.takeProfit &&
    (if position.side = PositionSide.long then
       decide (candle.high ≥ position.takeProfit.getD 0)
     else decide (candle.low ≤ position.takeProfit.getD 0))

/-- checkPositionExits (src engine/market-simulator.ts): stop loss, then
trailing stop, then take profit; the first triggered level closes the
position at that level with the matching reason. -/
def checkPositionExits (config : BacktestConfig) (position : Position)
    (candle : OHLCV) (s : SimState) : Option Trade × SimState :=
  if slHit position candle then
    let r := closePosition config position (position.stopLoss.getD 0)
               candle.timestamp ExitReason.stop_loss s
    (some r.1, r.2)
  else if tsHit position candle then
    let r := closePosition config position (trailingStopLevel position)
               candle.timestamp ExitReason.trailing_stop s
    (some r.1, r.2)
  else if tpHit position candle then
    let r := closePosition config position (position.takeProfit.getD 0)
               candle.timestamp ExitReason.take_profit s
    (some r.1, r.2)
  else (none, s)

/-- updateTrailingStop (src engine/market-simulator.ts): track the peak,
activate once the profit threshold is reached, and move the stop with the
peak, clamped at breakeven. -/
def updateTrailingStop (position : Position) (candle : OHLCV) : Position :=
  match position.trailingStop with
  | none => position
  | some ts0 =>
      let activationPct := ts0.activationPercent.getD 2
      let trailPct := ts0.trailPercent.getD 1
      match position.side with
      | .long =>
          let ts1 :=
            if ¬ truthy ts0.highestPrice ∨ candle.high > ts0.highestPrice.getD 0 then
              { ts0 with highestPrice := some candle.high }
            else ts0
          let ts2 :=
            if ¬ ts1.active then
              let profitPercent :=
                (candle.high - position.entryPrice) / position.entryPrice * 100
              if profitPercent ≥ activationPct then { ts1 with active := true } else ts1
            else ts1
          let ts3 :=
            if ts2.active ∧ truthy ts2.highestPrice then
              let stop := ts2.highestPrice.getD 0 * (1 - trailPct / 100)
              let clamped := if stop < position.entryPrice then position.entryPrice else stop
              { ts2 with currentStop := some clamped }
            else ts2
          { position with trailingStop := some ts3 }
      | .short =>
          let ts1 :=
            if ¬ truthy ts0.lowestPrice ∨ candle.low < ts0.lowestPrice.getD 0 then
              { ts0 with lowestPrice := some candle.low }
            else ts0
          let ts2 :=
            if ¬ ts1.active then
              let profitPercent :=
                (position.entryPrice - candle.low) / position.entryPrice * 100
              if profitPercent ≥ activationPct then { ts1 with active := true } else ts1
            else ts1
          let ts3 :=
            if ts2.active ∧ truthy ts2.lowestPrice then
              let stop := ts2.lowestPrice.getD 0 * (1 + trailPct / 100)
              let clamped := if stop > position.entryPrice then position.entryPrice else stop
              { ts2 with currentStop := some clamped }
            else ts2
          { position with trailingStop := some ts3 }

/-- updateUnrealizedPnl (src engine/market-simulator.ts). -/
def updateUnrealizedPnl (position : Position) (candle : OHLCV) : Position :=
  let currentPrice := candle.close
  let priceDiff :=
    match position.side with
    | .long => currentPrice - position.entryPrice
    | .short => position.entryPrice - currentPrice
  { position with
      unrealizedPnl := some (priceDiff * position.size)
      unrealizedPnlPercent := some (priceDiff / position.entryPrice * 100) }

/-- updateEquity (src engine/market-simulator.ts). -/
def updateEquity (s : SimState) : SimState :=
  let unrealizedPnl :=
    (s.portfolio.openPositions.map (fun p => p.unrealizedPnl.getD 0)).sum
  { s with portfolio :=
      { s.portfolio with equity := s.portfolio.currentCapital + unrealizedPnl } }

/-- removePosition (src engine/market-simulator.ts): splice out the first
open position whose drawn uuid equals the given position's, the uuid
comparison being abstracted as `idEq` over draw indices (instantiated with
the uuid stream at the top level). -/
def removePosition (idEq : ℕ → ℕ → Bool) (s : SimState) (position : Position) :
    SimState :=
  match s.portfolio.openPositions.findIdx? (fun p => idEq p.idIdx position.idIdx) with
  | some i =>
      { s with portfolio :=
          { s.portfolio with openPositions := s.portfolio.openPositions.eraseIdx i } }
  | none => s

/-- In-place mutation of a position object referenced from the open list
(JS object identity), modelled by replacing the position that carries the
same (unique, fresh) draw index. -/
def updateStored (s : SimState) (p : Position) : SimState :=
  { s with portfolio :=
      { s.portfolio with openPositions :=
          s.portfolio.openPositions.map (fun q => if q.idIdx == p.idIdx then p else q) } }

/-- processCandle (src engine/market-simulator.ts): for each open position
(snapshot order), close it on the first triggered exit, otherwise update
its trailing stop and unrealized P&L; finally refresh equity. -/
def processCandle (config : BacktestConfig) (idEq : ℕ → ℕ → Bool)
    (candle : OHLCV) (symbol : String) (s : SimState) :
    List Trade × SimState :=
  let folded :=
    s.portfolio.openPositions.foldl
      (fun (acc : List Trade × SimState) position =>
        match checkPositionExits config position candle acc.2 with
        | (some trade, s1) => (acc.1 ++ [trade], removePosition idEq s1 position)
        | (none, s1) =>
            (acc.1, updateStored s1 (updateUnrealizedPnl (updateTrailingStop position candle) candle)))
      ([], s)
  (folded.1, updateEquity folded.2)

/-- hasOpenPosition (src engine/market-simulator.ts). -/
def hasOpenPosition (s : SimState) (symbol : String) : Bool :=
  s.portfolio.openPositions.any (fun p => p.symbol == symbol)

/-- getOpenPosition (src engine/market-simulator.ts). -/
def getOpenPosition (s : SimState) (symbol : String) : Option Position :=
  s.portfolio.openPositions.find? (fun p => p.symbol == symbol)

/-! ## Strategy executor (src engine/strategy-executor.ts) -/

/-- The per-indicator capability set registered in the indicator registry
(validate, calculate, getRequiredPeriods); the registry itself is passed to
the executor as an explicit dependency.  The built-in indicators are pure
functions, so any Lean value of this type is a faithful registry entry. -/
structure Indicator where
  validate : List (String × (ℚ ⊕ String)) → Bool
  calculate : List OHLCV → List (String × (ℚ ⊕ String)) → List (Option IndVal)
  getRequiredPeriods : List (String × (ℚ ⊕ String)) → ℕ

/-- The indicator registry: a case-insensitive name-keyed map. -/
def Registry : Type := List (String × Indicator)

/-- IndicatorRegistry.get (src indicators/registry.ts): case-insensitive
lookup. -/
def registryGet (reg : Registry) (name : String) : Option Indicator :=
  ((reg.find? (fun p => p.1.toLower == name.toLower)).map (fun p => p.2))

/-- The executor state for one symbol (src engine/strategy-executor.ts);
during `execute` the current position stays null (the engine only calls
setPosition after `execute` has returned the whole result array). -/
structure ExecutorState where
  currentPosition : Option Position
  lastEvaluationContext : Option EvaluationContext

/-- The result record produced per candle (src engine/strategy-executor.ts). -/
structure ExecutionResult where
  signal : Signal
  context : EvaluationContext
  indicators : List (String × Option IndVal)

instance : Inhabited ExecutionResult :=
  ⟨{ signal := { type := SignalType.none, price := 0, timestamp := 0, reason := none }
     context := { indicators := [], vars := [], price := ⟨0, 0, 0, 0, 0⟩, previous := none }
     indicators := [] }⟩

/-- The abstract evaluator for computed-variable expressions.  The source
builds the value by textual substitution followed by `eval`; that evaluator
is a pure function of the expression, the indicator values and the candle,
and is abstracted here as an explicit function parameter. -/
def ExprEval : Type :=
  String → List (String × Option IndVal) → OHLCV → Option ℚ

/-- calculateAllIndicators (src engine/strategy-executor.ts): skip unknown
types and invalid parameter sets, keep definition order. -/
def calculateAllIndicators (reg : Registry) (strategy : StrategySchema)
    (data : List OHLCV) : List (String × List (Option IndVal)) :=
  strategy.indicators.foldl
    (fun acc idef =>
      match registryGet reg idef.type with
      | none => acc
      | some ind =>
          if ind.validate idef.params then acc ++ [(idef.id, ind.calculate data idef.params)]
          else acc)
    []

/-- calculateVariables (src engine/strategy-executor.ts): evaluate each
computed variable with the expression evaluator; a failed evaluation is
null. -/
def calculateVariables (evalExpr : ExprEval) (strategy : StrategySchema)
    (indicators : List (String × Option IndVal)) (candle : OHLCV) :
    List (String × Option ℚ) :=
  strategy.computedVariables.foldl
    (fun acc v => acc ++ [(v.id, evalExpr v.expression indicators candle)]) []

/-- The price block of a context built from a candle. -/
def priceOf (candle : OHLCV) : PriceCtx :=
  { opn := candle.opn
    high := candle.high
    low := candle.low
    close := candle.close
    volume := candle.volume }

/-- buildEvaluationContext (src engine/strategy-executor.ts): current
indicator values at the index, computed variables, prices, and a previous
sub-context taken from the stored last context (or rebuilt from the
previous candle when no context has been stored yet). -/
def buildEvaluationContext (evalExpr : ExprEval) (strategy : StrategySchema)
    (candle : OHLCV) (prevCandle : Option OHLCV)
    (indicators : List (String × List (Option IndVal))) (index : ℕ)
    (lastCtx : Option EvaluationContext) : EvaluationContext :=
  let indicatorValues : List (String × Option IndVal) :=
    indicators.map (fun p => (p.1, (p.2.getD index none)))
  let vars := calculateVariables evalExpr strategy indicatorValues candle
  let previous : Option CtxBase :=
    match lastCtx with
    | some lc => some lc.toCtxBase
    | none =>
        match prevCandle with
        | some pc =>
            if index > 0 then
              let prevIndicatorValues : List (String × Option IndVal) :=
                indicators.map (fun p => (p.1, (p.2.getD (index - 1) none)))
              some { indicators := prevIndicatorValues
                     vars := calculateVariables evalExpr strategy prevIndicatorValues pc
                     price := priceOf pc }
            else none
        | none => none
  { indicators := indicatorValues
    vars := vars
    price := priceOf candle
    previous := previous }

/-- evaluateEntrySignal (src engine/strategy-executor.ts): the main
conditions must hold, and the filters when defined. -/
def evaluateEntrySignal (signal : SignalDefinition)
    (context : EvaluationContext) : Bool :=
  if ¬ evaluateGroup signal.conditions context then false
  else
    match signal.filters with
    | some f => evaluateGroup f context
    | none => true

/-- generateSignal (src engine/strategy-executor.ts).  The timestamp of
every produced signal is the `Date.now()` wall clock at generation time,
passed in as `now`. -/
def generateSignal (strategy : StrategySchema)
    (currentPosition : Option Position) (context : EvaluationContext)
    (now : Int) : Signal :=
  let hasPosition := currentPosition.isSome
  let positionSide := currentPosition.map (fun p => p.side)
  let exitFires : Bool :=
    hasPosition &&
      (match strategy.exitSignals.signalExit with
       | some se => evaluateGroup se.conditions context
       | none => false)
  let longFires : Bool :=
    (! hasPosition) &&
      (match strategy.entrySignals.long with
       | some sd => evaluateEntrySignal sd context
       | none => false)
  let shortFires : Bool :=
    (! hasPosition) &&
      (match strategy.entrySignals.short with
       | some sd => evaluateEntrySignal sd context
       | none => false)
  if exitFires then
    { type := if positionSide = some PositionSide.long then SignalType.exit_long
              else SignalType.exit_short
      price := context.price.close
      timestamp := now
      reason := some "signal" }
  else if longFires then
    { type := SignalType.entry_long
      price := context.price.close
      timestamp := now
      reason := some "entry_signal" }
  else if shortFires then
    { type := SignalType.entry_short
      price := context.price.close
      timestamp := now
      reason := some "entry_signal" }
  else
    { type := SignalType.none
      price := context.price.close
      timestamp := now
      reason := none }

/-- getCurrentIndicatorValues (src engine/strategy-executor.ts). -/
def getCurrentIndicatorValues (indicators : List (String × List (Option IndVal)))
    (index : ℕ) : List (String × Option IndVal) :=
  indicators.map (fun p => (p.1, p.2.getD index none))

/-- The candle loop of execute (src engine/strategy-executor.ts), walking
the candles from position `i` with the stored last context; the executor
position is fixed to the initial null for the whole walk because execute
never calls setPosition. -/
def executeGo (evalExpr : ExprEval) (strategy : StrategySchema)
    (nows : ℕ → Int) (data : List OHLCV)
    (indicators : List (String × List (Option IndVal)))
    (curPos : Option Position) :
    ℕ → Option EvaluationContext → List ExecutionResult
  | i, lastCtx =>
      match h : data.get? i with
      | none => []
      | some candle =>
          let prevCandle := if i = 0 then none else data.get? (i - 1)
          let context :=
            buildEvaluationContext evalExpr strategy candle prevCandle indicators i lastCtx
          let signal := generateSignal strategy curPos context (nows i)
          { signal := signal
            context := context
            indicators := getCurrentIndicatorValues indicators i } ::
            executeGo evalExpr strategy nows data indicators curPos (i + 1) (some context)
termination_by i _ => data.length - i
decreasing_by
  have hi : i < data.length := List.get?_eq_some.mp h |>.1
  omega

/-- StrategyExecutor.execute (src engine/strategy-executor.ts): reset the
symbol state, compute all indicators, then produce one result per candle. -/
def execute (reg : Registry) (evalExpr : ExprEval) (strategy : StrategySchema)
    (nows : ℕ → Int) (data : List OHLCV) (symbol : String) :
    List ExecutionResult :=
  let st0 : ExecutorState := { currentPosition := none, lastEvaluationContext := none }
  let indicators := calculateAllIndicators reg strategy data
  executeGo evalExpr strategy nows data indicators st0.currentPosition 0
    st0.lastEvaluationContext

/-- StrategyExecutor.getRequiredPeriods (src engine/strategy-executor.ts). -/
def getRequiredPeriods (reg : Registry) (strategy : StrategySchema) : ℕ :=
  strategy.indicators.foldl
    (fun m idef =>
      match registryGet reg idef.type with
      | some ind => max m (ind.getRequiredPeriods idef.params)
      | none => m)
    strategy.dataRequirements.lookbackPeriods

/-! ## Backtest engine (src engine/backtest-engine.ts) -/

/-- The engine-side per-run accumulator: equity curve and peak equity. -/
structure EngineState where
  equityCurve : List EquityPoint
  peakEquity : ℚ
  deriving DecidableEq, Repr

/-- recordEquityPoint (src engine/backtest-engine.ts). -/
def recordEquityPoint (simS : SimState) (es : EngineState) (timestamp : Int) :
    EngineState :=
  let equity := simS.portfolio.equity
  let peak := if equity > es.peakEquity then equity else es.peakEquity
  let drawdown := peak - equity
  let drawdownPercent := drawdown / peak * 100
  { equityCurve :=
      es.equityCurve ++
        [{ timestamp := timestamp
           equity := equity
           drawdown := drawdown
           drawdownPercent := drawdownPercent
           openPositions := simS.portfolio.openPositions.length }]
    peakEquity := peak }

/-- filterDataByDateRange (src engine/backtest-engine.ts). -/
def filterDataByDateRange (config : BacktestConfig) (data : List OHLCV) :
    List OHLCV :=
  data.filter (fun candle =>
    candle.timestamp ≥ config.startDate ∧ candle.timestamp ≤ config.endDate)

/-- processSignal (src engine/backtest-engine.ts): a signal-exit closes the
open position through closePosition (which never removes it from the open
list); an entry opens a position with the configured exits. -/
def processSignal (config : BacktestConfig) (strategy : StrategySchema)
    (signal : Signal) (candle : OHLCV) (symbol : String)
    (atrValue : Option ℚ) (s : SimState) : SimState :=
  let hasPosition := hasOpenPosition s symbol
  if hasPosition ∧
     (signal.type = SignalType.exit_long ∨ signal.type = SignalType.exit_short) then
    match getOpenPosition s symbol with
    | some position =>
        (closePosition config position signal.price candle.timestamp ExitReason.signal s).2
    | none => s
  else if (¬ hasPosition) ∧
          (signal.type = SignalType.entry_long ∨ signal.type = SignalType.entry_short) then
    (openPosition config signal candle symbol strategy.exitSignals.stopLoss
       strategy.exitSignals.takeProfit strategy.exitSignals.trailingStop
       strategy.riskManagement.riskPerTrade atrValue s).2
  else s

/-- The slice of the run result needed by the claims: the source
BacktestResult fields that carry wall-clock times or the raw config are
omitted; `finalCapital` is the corresponding field of the metrics block,
and `portfolio` is what `getPortfolio()` returns after the run. -/
structure RunResult where
  status : String
  error : Option String
  trades : List Trade
  equityCurve : List EquityPoint
  totalCandles : ℕ
  processedCandles : ℕ
  finalCapital : ℚ
  portfolio : Portfolio
  deriving DecidableEq, Repr

/-- createErrorResult (src engine/backtest-engine.ts). -/
def createErrorResult (config : BacktestConfig) (error : String) : RunResult :=
  { status := "failed"
    error := some error
    trades := []
    equityCurve := []
    totalCandles := 0
    processedCandles := 0
    finalCapital := config.initialCapital
    portfolio := initPortfolio config }

/-- The finalCapital selection of calculateBacktestMetrics (src
engine/metrics-calculator.ts): with no trades the metrics are zeroed with
finalCapital = initialCapital; otherwise finalCapital is the equity of the
last equity point (or initialCapital when the curve is empty). -/
def metricsFinalCapital (trades : List Trade) (equityCurve : List EquityPoint)
    (initialCapital : ℚ) : ℚ :=
  if trades.isEmpty then initialCapital
  else
    match equityCurve.getLast? with
    | some p => p.equity
    | none => initialCapital

/-- The ATR period the engine uses for SL/TP:
`strategy.exitSignals.stopLoss?.atrPeriod || 14`. -/
def atrPeriodOf (strategy : StrategySchema) : ℕ :=
  match strategy.exitSignals.stopLoss with
  | some sl =>
      match sl.atrPeriod with
      | some n => if n = 0 then 14 else n
      | none => 14
  | none => 14

/-- One iteration of the engine's candle loop (src engine/backtest-engine.ts
step 6): process the candle through the simulator, apply the precomputed
signal, and record an equity point. -/
def runLoopStep (config : BacktestConfig) (idEq : ℕ → ℕ → Bool)
    (strategy : StrategySchema) (symbol : String)
    (executionResults : List ExecutionResult) (filteredData : List OHLCV)
    (atrValues : List (Option ℚ)) (acc : SimState × EngineState) (i : ℕ) :
    SimState × EngineState :=
  let result := executionResults.getD i default
  let candle := filteredData.getD i default
  let atrValue := atrValues.getD i none
  let pc := processCandle config idEq candle symbol acc.1
  let ss2 := processSignal config strategy result.signal candle symbol atrValue pc.2
  (ss2, recordEquityPoint ss2 acc.2 candle.timestamp)

/-- The end-of-range force-close loop (src engine/backtest-engine.ts step 7):
close every remaining open position at the last candle's close with reason
manual (through closePosition, which leaves them in the open list). -/
def forceCloseAll (config : BacktestConfig) (lastCandle : OHLCV) (s : SimState) :
    SimState :=
  s.portfolio.openPositions.foldl
    (fun ss position =>
      (closePosition config position lastCandle.close lastCandle.timestamp
         ExitReason.manual ss).2)
    s

/-- BacktestEngine.run (src engine/backtest-engine.ts), parameterised over
the uuid draw comparison `idEq` (see the file header): clip the data, check
warmup, precompute ATR, run the executor, then walk the candles through
processCandle / processSignal / recordEquityPoint, force-close the
remaining positions at the last close, and assemble the result.  The
engine's executor setPosition writes are not modelled because the executor
is never consulted after `execute`; progress callbacks and wall-clock
fields are likewise outside the model. -/
def runAux (idEq : ℕ → ℕ → Bool) (strategy : StrategySchema)
    (config : BacktestConfig) (reg : Registry) (evalExpr : ExprEval)
    (nows : ℕ → Int) (data : List OHLCV) (symbol : String) : RunResult :=
  let filteredData := filterDataByDateRange config data
  if filteredData.length = 0 then
    createErrorResult config "No data available for the specified date range"
  else
    let requiredPeriods := getRequiredPeriods reg strategy
    if filteredData.length < requiredPeriods then
      createErrorResult config "Insufficient data"
    else
      let simS0 : SimState :=
        { portfolio := initPortfolio config, trades := [], uuidCounter := 1 }
      let es0 : EngineState := { equityCurve := [], peakEquity := config.initialCapital }
      let atrValues := calculateATR filteredData (atrPeriodOf strategy)
      let executionResults := execute reg evalExpr strategy nows filteredData symbol
      let totalCandles := executionResults.length
      let stepped :=
        ((List.range totalCandles).drop requiredPeriods).foldl
          (runLoopStep config idEq strategy symbol executionResults filteredData
            atrValues)
          (simS0, es0)
      let lastCandle := filteredData.getLastD default
      let simS2 := forceCloseAll config lastCandle stepped.1
      { status := "completed"
        error := none
        trades := simS2.trades
        equityCurve := stepped.2.equityCurve
        totalCandles := totalCandles
        processedCandles := totalCandles - requiredPeriods
        finalCapital :=
          metricsFinalCapital simS2.trades stepped.2.equityCurve config.initialCapital
        portfolio := simS2.portfolio }

/-- BacktestEngine.run with the uuid draws instantiated from a concrete
uuid stream `ids`: two stored draw indices denote the same uuid exactly
when the stream values coincide. -/
def run (ids : ℕ → ℕ) (strategy : StrategySchema) (config : BacktestConfig)
    (reg : Registry) (evalExpr : ExprEval) (nows : ℕ → Int)
    (data : List OHLCV) (symbol : String) : RunResult :=
  runAux (fun a b => ids a == ids b) strategy config reg evalExpr nows data symbol

/-- A trade as emitted to the caller, with the drawn uuid attached. -/
structure RenderedTrade where
  id : ℕ
  symbol : String
  side : PositionSide
  entryPrice : ℚ
  exitPrice : ℚ
  size : ℚ
  entryTime : Int
  exitTime : Int
  pnl : ℚ
  pnlPercent : ℚ
  commission : ℚ
  netPnl : ℚ
  exitReason : ExitReason
  holdingTime : Int
  deriving DecidableEq, Repr

/-- Attach the uuid drawn at the trade's draw index. -/
def renderTrade (ids : ℕ → ℕ) (t : Trade) : RenderedTrade :=
  { id := ids t.idIdx
    symbol := t.symbol
    side := t.side
    entryPrice := t.entryPrice
    exitPrice := t.exitPrice
    size := t.size
    entryTime := t.entryTime
    exitTime := t.exitTime
    pnl := t.pnl
    pnlPercent := t.pnlPercent
    commission := t.commission
    netPnl := t.netPnl
    exitReason := t.exitReason
    holdingTime := t.holdingTime }

/-- The trade sequence of a run as the caller observes it (uuid included). -/
def emittedTrades (ids : ℕ → ℕ) (strategy : StrategySchema)
    (config : BacktestConfig) (reg : Registry) (evalExpr : ExprEval)
    (nows : ℕ → Int) (data : List OHLCV) (symbol : String) :
    List RenderedTrade :=
  ((run ids strategy config reg evalExpr nows data symbol).trades).map (renderTrade ids)

/-- Erase the uuid field of an emitted trade. -/
def eraseId (t : RenderedTrade) : RenderedTrade :=
  { t with id := 0 }

/-! ## Concrete scenario: an always-long strategy on three flat candles -/

/-- A minimal always-long strategy: one entry-long condition `close > 0`,
no indicators, no computed variables, no configured exits. -/
def ceStrategy : StrategySchema :=
  { id := "ce"
    version := "1.0.0"
    name := "always-long"
    dataRequirements :=
      { primaryTimeframe := Timeframe.m1
        additionalTimeframes := []
        lookbackPeriods := 1
        symbols := ["BTCUSDT"] }
    indicators := []
    computedVariables := []
    entrySignals :=
      { long := some
          { conditions :=
              { operator := GroupOp.AND
                conditions := [CondNode.leaf
                  { type := ConditionType.greater_than
                    left := "close"
                    right := Sum.inr 0
                    params := none }] }
            filters := none }
        short := none }
    exitSignals :=
      { stopLoss := none
        takeProfit := none
        trailingStop := none
        signalExit := none
        timeout := none }
    riskManagement :=
      { riskPerTrade := 2
        maxPositionSize := 100
        maxOpenPositions := 1
        leverage := none } }

/-- Run configuration: 1000 capital, 1 percent commission, no slippage. -/
def ceConfig : BacktestConfig :=
  { startDate := 0
    endDate := 1000000
    initialCapital := 1000
    commissionPercent := 1 / 100
    slippagePercent := 0 }

/-- A flat candle at the given timestamp. -/
def ceCandle (ts : Int) : OHLCV :=
  { timestamp := ts, opn := 100, high := 100, low := 100, close := 100, volume := 1 }

/-- Three one-minute candles. -/
def ceData : List OHLCV := [ceCandle 0, ceCandle 60000, ceCandle 120000]

/-- Empty registry (the scenario strategy declares no indicators). -/
def ceReg : Registry := []

/-- Expression evaluator for a strategy with no computed variables. -/
def ceEval : ExprEval := fun _ _ _ => none

/-- A wall clock stream. -/
def ceNows : ℕ → Int := fun _ => 999

/-- One injective uuid stream. -/
def idsA : ℕ → ℕ := fun n => n

/-- A second injective uuid stream, distinct from `idsA` everywhere. -/
def idsB : ℕ → ℕ := fun n => n + 1

/-- The scenario run under the first uuid stream. -/
def ceRun : RunResult :=
  run idsA ceStrategy ceConfig ceReg ceEval ceNows ceData "BTCUSDT"

/-- A long position held in the counterexample states below. -/
def c1Pos : Position :=
  { idIdx := 3
    symbol := "BTCUSDT"
    side := PositionSide.long
    entryPrice := 100
    size := 1
    entryTime := 0
    stopLoss := none
    takeProfit := none
    trailingStop := none
    unrealizedPnl := none
    unrealizedPnlPercent := none }

/-- A simulator state holding `c1Pos` as its only open position. -/
def c1State : SimState :=
  { portfolio := { initPortfolio ceConfig with openPositions := [c1Pos] }
    trades := []
    uuidCounter := 5 }

set_option maxRecDepth 100000

/-! ## Claim theorems -/

/-- Claim C1 (amended): closePosition adds the trade's net P&L to
currentCapital, returns size times the (slippage-adjusted) exit price to
availableCapital and appends the trade, but it does not remove the position
from the portfolio's open positions; removal happens only in
processCandle's own exit path, so a position closed through the engine's
signal-exit path or the end-of-range force-close stays in openPositions. -/
theorem C1_close_updates_capital_keeps_position (config : BacktestConfig)
    (position : Position) (exitPrice : ℚ) (exitTime : Int)
    (exitReason : ExitReason) (s : SimState) :
    (closePosition config position exitPrice exitTime exitReason s).2.portfolio.currentCapital
        = s.portfolio.currentCapital
          + (closePosition config position exitPrice exitTime exitReason s).1.netPnl ∧
    (closePosition config position exitPrice exitTime exitReason s).2.portfolio.availableCapital
        = s.portfolio.availableCapital
          + (closePosition config position exitPrice exitTime exitReason s).1.size
            * (closePosition config position exitPrice exitTime exitReason s).1.exitPrice ∧
    (closePosition config position exitPrice exitTime exitReason s).2.trades
        = s.trades ++ [(closePosition config position exitPrice exitTime exitReason s).1] ∧
    (closePosition config position exitPrice exitTime exitReason s).2.portfolio.openPositions
        = s.portfolio.openPositions := by
  refine ⟨rfl, ?_, rfl, rfl⟩
  simp only [closePosition]

/-- Claim C1 counterexample: after a direct closePosition call (the
engine's signal-exit and force-close paths), the closed position is still
a member of the portfolio's open positions. -/
theorem C1_counterexample :
    c1Pos ∈ ((closePosition ceConfig c1Pos 100 60000 ExitReason.signal
        c1State).2).portfolio.openPositions := by
  with_unfolding_all decide

/-- Claim C10: whenever openPosition returns null (a non-entry signal, a
degenerate risk-per-unit, or an unaffordable position value), the
simulator state is returned exactly as it was. -/
theorem C10_open_null_state_unchanged (config : BacktestConfig)
    (signal : Signal) (candle : OHLCV) (symbol : String)
    (stopLossConfig : Option StopLossConfig)
    (takeProfitConfig : Option TakeProfitConfig)
    (trailingStopConfig : Option TrailingStopConfig)
    (riskPercent : ℚ) (atrValue : Option ℚ) (s : SimState)
    (h : (openPosition config signal candle symbol stopLossConfig takeProfitConfig
            trailingStopConfig riskPercent atrValue s).1 = none) :
    (openPosition config signal candle symbol stopLossConfig takeProfitConfig
        trailingStopConfig riskPercent atrValue s).2 = s := by
  unfold openPosition at h ⊢
  repeat (split at h <;> simp_all)

/-- A non-entry signal used by the C10 witness. -/
def c10Signal : Signal :=
  { type := SignalType.none, price := 100, timestamp := 0, reason := none }

/-- Witness for C10 at a concrete non-entry signal. -/
theorem C10_witness :
    (openPosition ceConfig c10Signal (ceCandle 0) "BTCUSDT" none none none 2
        none c1State).1 = none ∧
    (openPosition ceConfig c10Signal (ceCandle 0) "BTCUSDT" none none none 2
        none c1State).2 = c1State :=
  ⟨by with_unfolding_all rfl,
   C10_open_null_state_unchanged ceConfig c10Signal (ceCandle 0) "BTCUSDT"
     none none none 2 none c1State (by with_unfolding_all rfl)⟩

/-- Claim C4: processCandle evaluates exit levels through
checkPositionExits in the order stop-loss, trailing stop, take-profit; the
first trigger that fires closes the position at that level's price with
the corresponding reason (no trigger leaves the state unchanged), and in
particular a candle on which both the stop-loss and the take-profit
trigger produces a stop_loss exit. -/
theorem C4_exit_priority (config : BacktestConfig) (position : Position)
    (candle : OHLCV) (s : SimState) :
    (slHit position candle = true →
      checkPositionExits config position candle s =
        (some (closePosition config position (position.stopLoss.getD 0)
            candle.timestamp ExitReason.stop_loss s).1,
         (closePosition config position (position.stopLoss.getD 0)
            candle.timestamp ExitReason.stop_loss s).2)) ∧
    (slHit position candle = false → tsHit position candle = true →
      checkPositionExits config position candle s =
        (some (closePosition config position (trailingStopLevel position)
            candle.timestamp ExitReason.trailing_stop s).1,
         (closePosition config position (trailingStopLevel position)
            candle.timestamp ExitReason.trailing_stop s).2)) ∧
    (slHit position candle = false → tsHit position candle = false →
      tpHit position candle = true →
      checkPositionExits config position candle s =
        (some (closePosition config position (position.takeProfit.getD 0)
            candle.timestamp ExitReason.take_profit s).1,
         (closePosition config position (position.takeProfit.getD 0)
            candle.timestamp ExitReason.take_profit s).2)) ∧
    (slHit position candle = false → tsHit position candle = false →
      tpHit position candle = false →
      checkPositionExits config position candle s = (none, s)) ∧
    (slHit position candle = true → tpHit position candle = true →
      ((checkPositionExits config position candle s).1.map (fun t => t.exitReason))
        = some ExitReason.stop_loss) := by
  refine ⟨?_, ?_, ?_, ?_, ?_⟩
  · intro h1
    simp [checkPositionExits, h1]
  · intro h1 h2
    simp [checkPositionExits, h1, h2]
  · intro h1 h2 h3
    simp [checkPositionExits, h1, h2, h3]
  · intro h1 h2 h3
    simp [checkPositionExits, h1, h2, h3]
  · intro h1 h3
    simp [checkPositionExits, closePosition, h1]

/-- A position whose stop-loss and take-profit both trigger on the C4
witness candle. -/
def c4Pos : Position :=
  { idIdx := 7
    symbol := "BTCUSDT"
    side := PositionSide.long
    entryPrice := 100
    size := 1
    entryTime := 0
    stopLoss := some 95
    takeProfit := some 105
    trailingStop := none
    unrealizedPnl := none
    unrealizedPnlPercent := none }

/-- A wide candle that reaches both 95 and 105. -/
def c4Candle : OHLCV :=
  { timestamp := 60000, opn := 100, high := 110, low := 90, close := 100, volume := 1 }

/-- Witness for C4: with both the stop-loss and the take-profit triggered
on the same candle, the emitted trade's exit reason is stop_loss. -/
theorem C4_witness :
    slHit c4Pos c4Candle = true ∧ tpHit c4Pos c4Candle = true ∧
    ((checkPositionExits ceConfig c4Pos c4Candle c1State).1.map
        (fun t => t.exitReason)) = some ExitReason.stop_loss :=
  ⟨by with_unfolding_all rfl, by with_unfolding_all rfl,
   (C4_exit_priority ceConfig c4Pos c4Candle c1State).2.2.2.2
     (by with_unfolding_all rfl) (by with_unfolding_all rfl)⟩

/-- The stop-loss stored in a successfully opened position is the
calculateStopLoss result at the position's own entry price and side. -/
theorem openPosition_some_stopLoss (config : BacktestConfig) (signal : Signal)
    (candle : OHLCV) (symbol : String) (slCfg : Option StopLossConfig)
    (tpCfg : Option TakeProfitConfig) (trCfg : Option TrailingStopConfig)
    (riskPercent : ℚ) (atrValue : Option ℚ) (s : SimState) (p : Position)
    (s2 : SimState)
    (h : openPosition config signal candle symbol slCfg tpCfg trCfg riskPercent
           atrValue s = (some p, s2)) :
    p.stopLoss = calculateStopLoss p.entryPrice p.side slCfg atrValue := by
  unfold openPosition at h
  split at h
  · exact absurd h (by simp)
  · split at h
    · exact absurd h (by simp)
    · split at h
      · exact absurd h (by simp)
      · simp only [] at h
        rw [Prod.mk.injEq] at h
        obtain ⟨h1, h2⟩ := h
        obtain rfl := Option.some.inj h1
        simp [newPosition, openStopLoss]

/-- Claim C5 (amended): a position returned by openPosition has its
stop-loss strictly on the correct side of the entry for a fixed_percent
stop with positive value (at a positive entry price) and for an
atr_multiple stop with a non-zero ATR whose product with the value is
positive.  (A fixed_price stop is taken verbatim and may lie on either
side; atr_multiple without an ATR yields a stop equal to the entry, and
the resulting zero risk-per-unit rejects the position.) -/
theorem C5_stoploss_side (config : BacktestConfig) (signal : Signal)
    (candle : OHLCV) (symbol : String) (slCfg : Option StopLossConfig)
    (tpCfg : Option TakeProfitConfig) (trCfg : Option TrailingStopConfig)
    (riskPercent : ℚ) (atrValue : Option ℚ) (s : SimState) (p : Position)
    (s2 : SimState)
    (h : openPosition config signal candle symbol slCfg tpCfg trCfg riskPercent
           atrValue s = (some p, s2)) :
    (∀ cfg, slCfg = some cfg → cfg.type = SLType.fixed_percent →
       0 < cfg.value → 0 < p.entryPrice →
       p.stopLoss.isSome = true ∧
       (p.side = PositionSide.long → p.stopLoss.getD 0 < p.entryPrice) ∧
       (p.side = PositionSide.short → p.entryPrice < p.stopLoss.getD 0)) ∧
    (∀ cfg a, slCfg = some cfg → cfg.type = SLType.atr_multiple →
       atrValue = some a → a ≠ 0 → 0 < a * cfg.value →
       p.stopLoss.isSome = true ∧
       (p.side = PositionSide.long → p.stopLoss.getD 0 < p.entryPrice) ∧
       (p.side = PositionSide.short → p.entryPrice < p.stopLoss.getD 0)) := by
  have hsl := openPosition_some_stopLoss config signal candle symbol slCfg tpCfg
    trCfg riskPercent atrValue s p s2 h
  constructor
  · rintro ⟨ty, v, ap⟩ rfl hty hv hentry
    simp only at hty
    subst hty
    simp only [calculateStopLoss] at hsl
    have hdist : 0 < p.entryPrice * (v / 100) := by positivity
    cases hside : p.side with
    | long =>
        rw [hside] at hsl
        refine ⟨by simp [hsl], fun _ => ?_, fun hct => by simp [hside] at hct⟩
        rw [hsl]
        simp only [Option.getD_some]
        linarith
    | short =>
        rw [hside] at hsl
        refine ⟨by simp [hsl], fun hct => by simp [hside] at hct, fun _ => ?_⟩
        rw [hsl]
        simp only [Option.getD_some]
        linarith
  · rintro ⟨ty, v, ap⟩ a rfl hty rfl ha hav
    simp only at hty
    subst hty
    simp only [calculateStopLoss, truthy] at hsl
    rw [if_pos (by simpa using ha)] at hsl
    simp only [Option.getD_some] at hsl
    cases hside : p.side with
    | long =>
        rw [hside] at hsl
        refine ⟨by simp [hsl], fun _ => ?_, fun hct => by simp [hside] at hct⟩
        rw [hsl]
        simp only [Option.getD_some]
        linarith
    | short =>
        rw [hside] at hsl
        refine ⟨by simp [hsl], fun hct => by simp [hside] at hct, fun _ => ?_⟩
        rw [hsl]
        simp only [Option.getD_some]
        linarith

/-- A fixed_price stop configuration above the entry of a long. -/
def c5SlCfg : StopLossConfig :=
  { type := SLType.fixed_price, value := 150, atrPeriod := none }

/-- An entry-long signal at 100. -/
def c5Signal : Signal :=
  { type := SignalType.entry_long, price := 100, timestamp := 0, reason := none }

/-- A fresh simulator state with full capital. -/
def c5State : SimState :=
  { portfolio := initPortfolio ceConfig, trades := [], uuidCounter := 1 }

/-- Claim C5 counterexample: with a fixed_price stop-loss configuration the
returned long position carries a stop-loss of 150 strictly above its entry
price 100, refuting the claim for the fixed_price configuration. -/
theorem C5_counterexample :
    ((openPosition ceConfig c5Signal (ceCandle 0) "BTCUSDT" (some c5SlCfg) none
        none 2 none c5State).1.map (fun p => (p.side, p.entryPrice, p.stopLoss)))
      = some (PositionSide.long, 100, some 150) ∧
    ¬ ((150 : ℚ) < 100) :=
  ⟨by with_unfolding_all rfl, by norm_num⟩

/-- A fixed_percent stop configuration with positive value. -/
def c5wCfg : StopLossConfig :=
  { type := SLType.fixed_percent, value := 5, atrPeriod := none }

/-- The position the C5 witness call returns. -/
def c5wPos : Position :=
  { idIdx := 1
    symbol := "BTCUSDT"
    side := PositionSide.long
    entryPrice := 100
    size := 4
    entryTime := 0
    stopLoss := some 95
    takeProfit := none
    trailingStop := none
    unrealizedPnl := none
    unrealizedPnlPercent := none }

/-- The simulator state after the C5 witness call. -/
def c5wState : SimState :=
  { portfolio :=
      { initialCapital := 1000
        currentCapital := 1000
        availableCapital := 600
        equity := 1000
        openPositions := [c5wPos]
        totalPnl := 0
        totalPnlPercent := 0
        totalCommission := 4 }
    trades := []
    uuidCounter := 2 }

/-- Witness for the amended C5 at a concrete fixed_percent stop. -/
theorem C5_witness :
    openPosition ceConfig c5Signal (ceCandle 0) "BTCUSDT" (some c5wCfg) none none
        2 none c5State = (some c5wPos, c5wState) ∧
    (c5wPos.stopLoss.isSome = true ∧
     (c5wPos.side = PositionSide.long → c5wPos.stopLoss.getD 0 < c5wPos.entryPrice) ∧
     (c5wPos.side = PositionSide.short → c5wPos.entryPrice < c5wPos.stopLoss.getD 0)) :=
  ⟨by with_unfolding_all rfl,
   (C5_stoploss_side ceConfig c5Signal (ceCandle 0) "BTCUSDT" (some c5wCfg) none
      none 2 none c5State c5wPos c5wState (by with_unfolding_all rfl)).1 c5wCfg
     rfl (by with_unfolding_all rfl) (by norm_num [c5wCfg])
     (by norm_num [c5wPos])⟩

/-- Every branch of generateSignal stamps the signal with the context's
close and the wall clock passed in. -/
theorem generateSignal_fields (strategy : StrategySchema)
    (currentPosition : Option Position) (context : EvaluationContext)
    (now : Int) :
    (generateSignal strategy currentPosition context now).price = context.price.close ∧
    (generateSignal strategy currentPosition context now).timestamp = now := by
  simp only [generateSignal]
  split_ifs <;> simp

/-- The context built for a candle carries that candle's prices. -/
theorem buildEvaluationContext_price (evalExpr : ExprEval)
    (strategy : StrategySchema) (candle : OHLCV) (prevCandle : Option OHLCV)
    (indicators : List (String × List (Option IndVal))) (index : ℕ)
    (lastCtx : Option EvaluationContext) :
    (buildEvaluationContext evalExpr strategy candle prevCandle indicators index
        lastCtx).price = priceOf candle := by
  unfold buildEvaluationContext
  rfl

/-- Indexing executeGo: its j-th result is produced for candle i + j with
the wall clock drawn at i + j. -/
theorem executeGo_get (evalExpr : ExprEval) (strategy : StrategySchema)
    (nows : ℕ → Int) (data : List OHLCV)
    (indicators : List (String × List (Option IndVal)))
    (curPos : Option Position) :
    ∀ (j i : ℕ) (lastCtx : Option EvaluationContext) (r : ExecutionResult),
      (executeGo evalExpr strategy nows data indicators curPos i lastCtx).get? j
        = some r →
      r.signal.price = (data.getD (i + j) default).close ∧
      r.signal.timestamp = nows (i + j) := by
  intro j
  induction j with
  | zero =>
      intro i lastCtx r hr
      rw [executeGo] at hr
      split at hr
      · simp at hr
      · rename_i candle heq
        simp only [List.get?_cons_zero, Option.some.injEq] at hr
        subst hr
        have heq2 : data[i]? = some candle := by
          rw [← List.get?_eq_getElem?]
          exact heq
        have hcl : data.getD (i + 0) default = candle := by
          simp [List.getD_eq_getD_get?, heq2]
        constructor
        · simp only []
          rw [(generateSignal_fields _ _ _ _).1, buildEvaluationContext_price, hcl]
          rfl
        · simp only []
          rw [(generateSignal_fields _ _ _ _).2, Nat.add_zero]
  | succ m ih =>
      intro i lastCtx r hr
      rw [executeGo] at hr
      split at hr
      · simp at hr
      · rename_i candle heq
        simp only [List.get?_cons_succ] at hr
        have := ih (i + 1) _ r hr
        constructor
        · rw [this.1]
          have : i + 1 + m = i + (m + 1) := by omega
          rw [this]
        · rw [this.2]
          have : i + 1 + m = i + (m + 1) := by omega
          rw [this]

/-- Claim C6 (amended): for every candle the executor processes, the
produced signal's price is that candle's close, while its timestamp is the
`Date.now()` wall clock drawn at generation time (not the candle's own
timestamp). -/
theorem C6_signal_price_and_clock (reg : Registry) (evalExpr : ExprEval)
    (strategy : StrategySchema) (nows : ℕ → Int) (data : List OHLCV)
    (symbol : String) (j : ℕ) (r : ExecutionResult)
    (h : (execute reg evalExpr strategy nows data symbol).get? j = some r) :
    r.signal.price = (data.getD j default).close ∧
    r.signal.timestamp = nows j := by
  have hx : (executeGo evalExpr strategy nows data
      (calculateAllIndicators reg strategy data) none 0 none).get? j = some r := by
    simpa [execute] using h
  simpa using executeGo_get evalExpr strategy nows data
    (calculateAllIndicators reg strategy data) none j 0 none r hx

/-- The candle of the C6 scenario: timestamp 111, close 42. -/
def c6Candle : OHLCV :=
  { timestamp := 111, opn := 42, high := 42, low := 42, close := 42, volume := 1 }

/-- Claim C6 counterexample: the produced signal's timestamp is the wall
clock (999), not the candle's timestamp (111). -/
theorem C6_counterexample :
    ((execute ceReg ceEval ceStrategy ceNows [c6Candle] "BTCUSDT").map
        (fun r => (r.signal.price, r.signal.timestamp))) = [(42, 999)] ∧
    c6Candle.timestamp = 111 ∧ ¬ ((999 : Int) = 111) :=
  ⟨by with_unfolding_all rfl, rfl, by decide⟩

/-- The first execution result of the C6 scenario. -/
def c6res : ExecutionResult :=
  ((execute ceReg ceEval ceStrategy ceNows [c6Candle] "BTCUSDT").get? 0).getD default

/-- Witness for the amended C6 at the concrete scenario. -/
theorem C6_witness :
    (execute ceReg ceEval ceStrategy ceNows [c6Candle] "BTCUSDT").get? 0
        = some c6res ∧
    (c6res.signal.price = (([c6Candle] : List OHLCV).getD 0 default).close ∧
     c6res.signal.timestamp = ceNows 0) :=
  ⟨by with_unfolding_all rfl,
   C6_signal_price_and_clock ceReg ceEval ceStrategy ceNows [c6Candle] "BTCUSDT"
     0 c6res (by with_unfolding_all rfl)⟩

/-- Claim C7 (amended): a null left operand makes every predicate false;
a null right operand makes greater_than, less_than, equals, crosses_above
and crosses_below false, but not_equals evaluates to true (a non-null left
differs from null), between falls back to the plain range test on the left
operand, and is_rising / is_falling ignore the right operand entirely. -/
theorem C7_null_operands (condition : Condition) (context : EvaluationContext) :
    (resolveValue (Sum.inl condition.left) context false = none →
       evaluateCondition condition context = false) ∧
    (resolveValue condition.right context false = none →
       ((condition.type = ConditionType.greater_than ∨
         condition.type = ConditionType.less_than ∨
         condition.type = ConditionType.equals ∨
         condition.type = ConditionType.crosses_above ∨
         condition.type = ConditionType.crosses_below) →
          evaluateCondition condition context = false) ∧
       (condition.type = ConditionType.not_equals →
          resolveValue (Sum.inl condition.left) context false ≠ none →
          evaluateCondition condition context = true) ∧
       (condition.type = ConditionType.between →
          ∀ lv, resolveValue (Sum.inl condition.left) context false = some lv →
            evaluateCondition condition context
              = evaluateBetween lv none condition.params)) ∧
    ((condition.type = ConditionType.is_rising ∨
      condition.type = ConditionType.is_falling) →
       ∀ r, evaluateCondition { condition with right := r } context
              = evaluateCondition condition context) := by
  refine ⟨?_, ?_, ?_⟩
  · intro hl
    simp [evaluateCondition, hl]
  · intro hr
    refine ⟨?_, ?_, ?_⟩
    · intro hty
      cases hL : resolveValue (Sum.inl condition.left) context false with
      | none => simp [evaluateCondition, hL]
      | some lv =>
          rcases hty with hty | hty | hty | hty | hty <;>
            cases hp : context.previous <;>
              simp [evaluateCondition, evaluateCrossesAbove, evaluateCrossesBelow,
                hty, hL, hr, hp]
    · intro hty hlne
      cases hL : resolveValue (Sum.inl condition.left) context false with
      | none => exact absurd hL hlne
      | some lv => simp [evaluateCondition, hty, hL, hr]
    · intro hty lv hL
      simp [evaluateCondition, hty, hL, hr]
  · rintro (hty | hty) r <;>
      cases hL : resolveValue (Sum.inl condition.left) context false <;>
        simp [evaluateCondition, hty, hL]

/-- The evaluation context of the C7 scenario: close resolves to 5, and
the reference "unknownref" resolves to null. -/
def c7Ctx : EvaluationContext :=
  { indicators := []
    vars := []
    price := { opn := 98, high := 102, low := 97, close := 5, volume := 1000 }
    previous := none }

/-- A not_equals condition whose right reference does not resolve. -/
def c7Cond : Condition :=
  { type := ConditionType.not_equals
    left := "close"
    right := Sum.inl "unknownref"
    params := none }

/-- Claim C7 counterexample: with a null right operand, not_equals
evaluates to true rather than false. -/
theorem C7_counterexample :
    resolveValue (Sum.inl "unknownref") c7Ctx false = none ∧
    evaluateCondition c7Cond c7Ctx = true :=
  ⟨by with_unfolding_all rfl, by with_unfolding_all rfl⟩

/-- A greater_than condition whose right reference does not resolve. -/
def c7gCond : Condition :=
  { type := ConditionType.greater_than
    left := "close"
    right := Sum.inl "unknownref"
    params := none }

/-- Witness for the amended C7: greater_than with a null right operand is
false at a concrete context. -/
theorem C7_witness :
    resolveValue c7gCond.right c7Ctx false = none ∧
    evaluateCondition c7gCond c7Ctx = false :=
  ⟨by with_unfolding_all rfl,
   ((C7_null_operands c7gCond c7Ctx).2.1 (by with_unfolding_all rfl)).1
     (Or.inl (by with_unfolding_all rfl))⟩

/-- The head of a scanl is its seed. -/
theorem scanl_getD_zero (f : ℚ → ℚ → ℚ) (b : ℚ) (l : List ℚ) (d : ℚ) :
    (List.scanl f b l).getD 0 d = b := by
  cases l <;> simp [List.scanl_nil, List.scanl_cons, List.getD_cons_zero]

/-- The scanl recurrence, read off by index. -/
theorem scanl_getD_succ (f : ℚ → ℚ → ℚ) (b : ℚ) (l : List ℚ) (n : ℕ)
    (h : n + 1 < (List.scanl f b l).length) :
    (List.scanl f b l).getD (n + 1) 0
      = f ((List.scanl f b l).getD n 0) (l.getD n 0) := by
  induction l generalizing b n with
  | nil =>
      simp only [List.length_scanl, List.length_nil] at h
      omega
  | cons x xs ih =>
      rw [List.scanl_cons]
      cases n with
      | zero =>
          simp only [List.singleton_append, List.getD_cons_succ, List.getD_cons_zero]
          rw [scanl_getD_zero]
      | succ m =>
          have h2 : m + 1 < (List.scanl f (f b x) xs).length := by
            rw [List.length_scanl] at h ⊢
            simp only [List.length_cons] at h
            omega
          simp only [List.singleton_append, List.getD_cons_succ]
          exact ih (f b x) m h2

/-- getD through map some, inside bounds. -/
theorem map_some_getD (l : List ℚ) (k : ℕ) (h : k < l.length) :
    (l.map some).getD k none = some (l.getD k 0) := by
  have h2 : k < (l.map some).length := by simpa using h
  rw [List.getD_eq_getD_get?, List.getD_eq_getD_get?]
  simp [List.getElem?_eq_getElem h2, List.getElem?_eq_getElem h]

/-- Claim C9 (amended): for period n with 1 ≤ n, calculateEMA returns a
sequence of the input's length whose first n−1 entries are null, whose
entry at n−1 is the arithmetic mean of the first n inputs, and whose later
entries follow ema = α x + (1−α) ema_prev with α = 2/(n+1); but the
indicator's getRequiredPeriods reports 2·n (a stabilisation margin), not
the minimal warmup n. -/
theorem C9_ema_calculate_and_warmup (values : List ℚ) (period : ℕ)
    (h1 : 1 ≤ period) :
    (calculateEMA values period).length = values.length ∧
    (∀ i, i < period - 1 → i < values.length →
       (calculateEMA values period).getD i (some 0) = none) ∧
    (period ≤ values.length →
       (calculateEMA values period).getD (period - 1) none
         = some ((values.take period).sum / period)) ∧
    (∀ i, period ≤ i → i < values.length →
       ∃ prev x, (calculateEMA values period).getD (i - 1) none = some prev ∧
         (calculateEMA values period).getD i none = some x ∧
         x = (2 / ((period : ℚ) + 1)) * values.getD i 0
             + (1 - 2 / ((period : ℚ) + 1)) * prev) ∧
    EMAIndicator.getRequiredPeriods period = 2 * period := by
  refine ⟨?_, ?_, ?_, ?_, ?_⟩
  · rw [calculateEMA]
    split
    · simp
    · rename_i hlen
      simp only [List.length_append, List.length_replicate, List.length_map,
        List.length_scanl, List.length_drop]
      omega
  · intro i hip hiv
    rw [calculateEMA]
    split
    · have h2 : i < (values.map (fun _ => (none : Option ℚ))).length := by
        simpa using hiv
      rw [List.getD_eq_getD_get?]
      simp [List.getElem?_eq_getElem h2, List.getElem?_replicate, hiv]
    · rw [List.getD_append _ _ _ _ (by simpa using hip)]
      have h2 : i < (List.replicate (period - 1) (none : Option ℚ)).length := by
        simpa using hip
      rw [List.getD_eq_getD_get?]
      simp [List.getElem?_eq_getElem h2, List.getElem_replicate]
  · intro hpl
    rw [calculateEMA, if_neg (by omega)]
    rw [List.getD_append_right _ _ _ _ (by simp)]
    simp only [List.length_replicate, Nat.sub_self]
    rw [map_some_getD _ _ (by rw [List.length_scanl]; omega), scanl_getD_zero]
  · intro i hpi hiv
    rw [calculateEMA, if_neg (by omega)]
    have hrep : (List.replicate (period - 1) (none : Option ℚ)).length = period - 1 := by
      simp
    have hL : ((values.drop period).scanl
        (fun ema x => (x - ema) * (2 / ((period : ℚ) + 1)) + ema)
        ((values.take period).sum / period)).length = values.length - period + 1 := by
      rw [List.length_scanl, List.length_drop]
    refine ⟨((values.drop period).scanl
        (fun ema x => (x - ema) * (2 / ((period : ℚ) + 1)) + ema)
        ((values.take period).sum / period)).getD (i - period) 0,
      ((values.drop period).scanl
        (fun ema x => (x - ema) * (2 / ((period : ℚ) + 1)) + ema)
        ((values.take period).sum / period)).getD (i - period + 1) 0, ?_, ?_, ?_⟩
    · rw [List.getD_append_right _ _ _ _ (by rw [hrep]; omega), hrep]
      have hidx : i - 1 - (period - 1) = i - period := by omega
      rw [hidx, map_some_getD _ _ (by rw [hL]; omega)]
    · rw [List.getD_append_right _ _ _ _ (by rw [hrep]; omega), hrep]
      have hidx : i - (period - 1) = i - period + 1 := by omega
      rw [hidx, map_some_getD _ _ (by rw [hL]; omega)]
    · rw [show i - period + 1 = (i - period) + 1 from rfl]
      rw [scanl_getD_succ _ _ _ _ (by rw [hL]; omega)]
      have hdrop : (values.drop period).getD (i - period) 0 = values.getD i 0 := by
        rw [List.getD_eq_getD_get?, List.getD_eq_getD_get?]
        have := List.getElem?_drop values period (i - period)
        rw [show period + (i - period) = i from by omega] at this
        simp only [List.get?_eq_getElem?]
        rw [this]
      rw [hdrop]
      ring
  · rw [EMAIndicator.getRequiredPeriods, if_neg (by omega)]
    omega

/-- Claim C9 counterexample: for period 5 the indicator reports a required
warmup of 10, not 5, although 5 inputs already produce a non-null value. -/
theorem C9_counterexample :
    EMAIndicator.getRequiredPeriods 5 = 10 ∧
    ¬ EMAIndicator.getRequiredPeriods 5 = 5 ∧
    (calculateEMA [1, 2, 3, 4, 5] 5).getD 4 none = some 3 :=
  ⟨by with_unfolding_all rfl, by with_unfolding_all decide, by with_unfolding_all rfl⟩

/-- Witness for the amended C9 at period 2 on three values. -/
theorem C9_witness :
    (1 ≤ 2) ∧
    ((calculateEMA [1, 2, 3] 2).length = 3 ∧
     (calculateEMA [1, 2, 3] 2).getD 1 none = some (3 / 2) ∧
     EMAIndicator.getRequiredPeriods 2 = 4) := by
  have h := C9_ema_calculate_and_warmup [1, 2, 3] 2 (by norm_num)
  refine ⟨by norm_num, ?_, ?_, ?_⟩
  · exact h.1
  · have := h.2.2.1 (by norm_num)
    norm_num at this
    simpa using this
  · have := h.2.2.2.2
    simpa using this


/-- The capital accounting invariant: currentCapital equals a base amount
plus the net P&L of all emitted trades. -/
def capInv (k : ℚ) (s : SimState) : Prop :=
  s.portfolio.currentCapital = k + ((s.trades.map (fun t => t.netPnl)).sum)

/-- Fold preservation of a predicate. -/
theorem foldl_preserves {α β : Type} (P : β → Prop) (f : β → α → β)
    (hf : ∀ b a, P b → P (f b a)) :
    ∀ (l : List α) (b : β), P b → P (l.foldl f b) := by
  intro l
  induction l with
  | nil => intro b hb; exact hb
  | cons x xs ih => intro b hb; exact ih (f b x) (hf b x hb)

/-- closePosition preserves the capital invariant: it adds the new trade's
net P&L to both sides of the ledger. -/
theorem closePosition_capInv (config : BacktestConfig) (p : Position)
    (price : ℚ) (t : Int) (r : ExitReason) (s : SimState) (k : ℚ)
    (h : capInv k s) :
    capInv k (closePosition config p price t r s).2 := by
  simp only [capInv, closePosition] at h ⊢
  simp [h]
  ring

/-- openPosition touches neither currentCapital nor the trade list. -/
theorem openPosition_capInv (config : BacktestConfig) (signal : Signal)
    (candle : OHLCV) (symbol : String) (slCfg : Option StopLossConfig)
    (tpCfg : Option TakeProfitConfig) (trCfg : Option TrailingStopConfig)
    (riskPercent : ℚ) (atrValue : Option ℚ) (s : SimState) (k : ℚ)
    (h : capInv k s) :
    capInv k (openPosition config signal candle symbol slCfg tpCfg trCfg
        riskPercent atrValue s).2 := by
  unfold openPosition
  repeat' split
  all_goals simpa [capInv] using h

/-- checkPositionExits preserves the capital invariant. -/
theorem checkPositionExits_capInv (config : BacktestConfig) (p : Position)
    (candle : OHLCV) (s : SimState) (k : ℚ) (h : capInv k s) :
    capInv k (checkPositionExits config p candle s).2 := by
  unfold checkPositionExits
  repeat' split
  all_goals first
    | exact closePosition_capInv config p _ _ _ s k h
    | exact h

/-- removePosition preserves the capital invariant. -/
theorem removePosition_capInv (idEq : ℕ → ℕ → Bool) (s : SimState)
    (p : Position) (k : ℚ) (h : capInv k s) :
    capInv k (removePosition idEq s p) := by
  unfold removePosition
  split
  all_goals simpa [capInv] using h

/-- updateStored preserves the capital invariant. -/
theorem updateStored_capInv (s : SimState) (p : Position) (k : ℚ)
    (h : capInv k s) : capInv k (updateStored s p) := by
  simpa [capInv, updateStored] using h

/-- updateEquity preserves the capital invariant. -/
theorem updateEquity_capInv (s : SimState) (k : ℚ) (h : capInv k s) :
    capInv k (updateEquity s) := by
  simpa [capInv, updateEquity] using h

/-- processCandle preserves the capital invariant. -/
theorem processCandle_capInv (config : BacktestConfig) (idEq : ℕ → ℕ → Bool)
    (candle : OHLCV) (symbol : String) (s : SimState) (k : ℚ)
    (h : capInv k s) :
    capInv k (processCandle config idEq candle symbol s).2 := by
  unfold processCandle
  apply updateEquity_capInv
  have := foldl_preserves (fun acc : List Trade × SimState => capInv k acc.2)
    (fun acc position =>
      match checkPositionExits config position candle acc.2 with
      | (some trade, s1) => (acc.1 ++ [trade], removePosition idEq s1 position)
      | (none, s1) =>
          (acc.1, updateStored s1
            (updateUnrealizedPnl (updateTrailingStop position candle) candle)))
    ?_ s.portfolio.openPositions ([], s) h
  · exact this
  · intro b a hb
    rcases hcp : checkPositionExits config a candle b.2 with ⟨tr, s1⟩
    have hs1 : capInv k s1 := by
      have := checkPositionExits_capInv config a candle b.2 k hb
      rw [hcp] at this
      exact this
    cases tr with
    | none => simpa [hcp] using updateStored_capInv s1 _ k hs1
    | some trade => simpa [hcp] using removePosition_capInv idEq s1 a k hs1

/-- processSignal preserves the capital invariant. -/
theorem processSignal_capInv (config : BacktestConfig)
    (strategy : StrategySchema) (signal : Signal) (candle : OHLCV)
    (symbol : String) (atrValue : Option ℚ) (s : SimState) (k : ℚ)
    (h : capInv k s) :
    capInv k (processSignal config strategy signal candle symbol atrValue s) := by
  unfold processSignal
  simp only []
  repeat' split
  all_goals first
    | exact closePosition_capInv config _ _ _ _ s k h
    | exact openPosition_capInv config _ _ _ _ _ _ _ _ s k h
    | exact h

/-- One engine loop iteration preserves the capital invariant. -/
theorem runLoopStep_capInv (config : BacktestConfig) (idEq : ℕ → ℕ → Bool)
    (strategy : StrategySchema) (symbol : String)
    (executionResults : List ExecutionResult) (filteredData : List OHLCV)
    (atrValues : List (Option ℚ)) (acc : SimState × EngineState) (i : ℕ)
    (k : ℚ) (h : capInv k acc.1) :
    capInv k (runLoopStep config idEq strategy symbol executionResults
        filteredData atrValues acc i).1 := by
  unfold runLoopStep
  exact processSignal_capInv config strategy _ _ symbol _ _ k
    (processCandle_capInv config idEq _ symbol acc.1 k h)

/-- The force-close loop preserves the capital invariant. -/
theorem forceCloseAll_capInv (config : BacktestConfig) (lastCandle : OHLCV)
    (s : SimState) (k : ℚ) (h : capInv k s) :
    capInv k (forceCloseAll config lastCandle s) := by
  unfold forceCloseAll
  exact foldl_preserves (capInv k) _
    (fun b a hb => closePosition_capInv config a lastCandle.close
      lastCandle.timestamp ExitReason.manual b k hb)
    s.portfolio.openPositions s h

/-- The run's final portfolio satisfies the exact capital ledger. -/
theorem runAux_capital (idEq : ℕ → ℕ → Bool) (strategy : StrategySchema)
    (config : BacktestConfig) (reg : Registry) (evalExpr : ExprEval)
    (nows : ℕ → Int) (data : List OHLCV) (symbol : String) :
    (runAux idEq strategy config reg evalExpr nows data symbol).portfolio.currentCapital
      = config.initialCapital
        + (((runAux idEq strategy config reg evalExpr nows data symbol).trades).map
            (fun t => t.netPnl)).sum := by
  unfold runAux
  simp only []
  split
  · simp [createErrorResult, initPortfolio]
  · split
    · simp [createErrorResult, initPortfolio]
    · simp only []
      have h0 : capInv config.initialCapital
          { portfolio := initPortfolio config, trades := [], uuidCounter := 1 } := by
        simp [capInv, initPortfolio]
      have h1 := foldl_preserves
        (fun acc : SimState × EngineState => capInv config.initialCapital acc.1)
        (runLoopStep config idEq strategy symbol
          (execute reg evalExpr strategy nows (filterDataByDateRange config data) symbol)
          (filterDataByDateRange config data)
          (calculateATR (filterDataByDateRange config data) (atrPeriodOf strategy)))
        (fun b a hb => runLoopStep_capInv config idEq strategy symbol _ _ _ b a
          config.initialCapital hb)
        (((List.range (execute reg evalExpr strategy nows
            (filterDataByDateRange config data) symbol).length)).drop
          (getRequiredPeriods reg strategy))
        ({ portfolio := initPortfolio config, trades := [], uuidCounter := 1 },
         { equityCurve := [], peakEquity := config.initialCapital })
        h0
      exact forceCloseAll_capInv config
        ((filterDataByDateRange config data).getLastD default) _
        config.initialCapital h1

/-- Claim C2 (amended): after every completed run, the portfolio's
currentCapital equals initialCapital plus the sum of the net P&L of all
emitted trades, exactly.  (The reported finalCapital is the equity of the
last equity point, recorded before the end-of-range force-close pays its
commission and slippage, so the claimed 1e-6-of-initial tolerance against
finalCapital does not hold in general.) -/
theorem C2_capital_ledger (ids : ℕ → ℕ) (strategy : StrategySchema)
    (config : BacktestConfig) (reg : Registry) (evalExpr : ExprEval)
    (nows : ℕ → Int) (data : List OHLCV) (symbol : String)
    (h : (run ids strategy config reg evalExpr nows data symbol).status
          = "completed") :
    (run ids strategy config reg evalExpr nows data symbol).portfolio.currentCapital
      = config.initialCapital
        + (((run ids strategy config reg evalExpr nows data symbol).trades).map
            (fun t => t.netPnl)).sum :=
  runAux_capital (fun a b => ids a == ids b) strategy config reg evalExpr nows
    data symbol

/-- Claim C2 counterexample: a completed run (1 percent commission, a
position force-closed at range end) whose trades sum to net −10 while the
reported finalCapital minus initialCapital is 0; the gap of 10 exceeds
1e-6 times the initial capital of 1000. -/
theorem C2_counterexample :
    ceRun.status = "completed" ∧
    |((ceRun.trades.map (fun t => t.netPnl)).sum)
        - (ceRun.finalCapital - ceConfig.initialCapital)|
      > (1 / 1000000) * ceConfig.initialCapital :=
  ⟨by with_unfolding_all rfl, by with_unfolding_all decide⟩

/-- Witness for the amended C2 at the concrete scenario run. -/
theorem C2_witness :
    ceRun.status = "completed" ∧
    ceRun.portfolio.currentCapital
      = ceConfig.initialCapital
        + ((ceRun.trades).map (fun t => t.netPnl)).sum :=
  ⟨by with_unfolding_all rfl,
   C2_capital_ledger idsA ceStrategy ceConfig ceReg ceEval ceNows ceData
     "BTCUSDT" (by with_unfolding_all rfl)⟩

/-- For an injective uuid stream, comparing drawn uuids is comparing draw
indices. -/
theorem beq_of_injective (ids : ℕ → ℕ) (h : Function.Injective ids) :
    (fun a b => ids a == ids b) = (fun a b : ℕ => a == b) := by
  funext a b
  by_cases hab : a = b
  · subst hab
    simp
  · have hne : ids a ≠ ids b := fun hc => hab (h hc)
    simp [hab, hne]

/-- Two runs over the same inputs with injective uuid streams produce the
same internal result (the stream only ever enters through uuid equality in
removePosition). -/
theorem run_eq_of_injective (ids1 ids2 : ℕ → ℕ)
    (h1 : Function.Injective ids1) (h2 : Function.Injective ids2)
    (strategy : StrategySchema) (config : BacktestConfig) (reg : Registry)
    (evalExpr : ExprEval) (nows : ℕ → Int) (data : List OHLCV)
    (symbol : String) :
    run ids1 strategy config reg evalExpr nows data symbol
      = run ids2 strategy config reg evalExpr nows data symbol := by
  unfold run
  rw [beq_of_injective ids1 h1, beq_of_injective ids2 h2]

/-- Claim C3 (amended): two runs over identical inputs produce identical
equity-curve sequences and trade sequences identical in every field except
the randomly drawn trade id; byte-identical trade sequences fail only on
that id field. -/
theorem C3_deterministic_modulo_ids (ids1 ids2 : ℕ → ℕ)
    (h1 : Function.Injective ids1) (h2 : Function.Injective ids2)
    (strategy : StrategySchema) (config : BacktestConfig) (reg : Registry)
    (evalExpr : ExprEval) (nows : ℕ → Int) (data : List OHLCV)
    (symbol : String) :
    (emittedTrades ids1 strategy config reg evalExpr nows data symbol).map eraseId
      = (emittedTrades ids2 strategy config reg evalExpr nows data symbol).map eraseId ∧
    (run ids1 strategy config reg evalExpr nows data symbol).equityCurve
      = (run ids2 strategy config reg evalExpr nows data symbol).equityCurve := by
  have hrun := run_eq_of_injective ids1 ids2 h1 h2 strategy config reg evalExpr
    nows data symbol
  constructor
  · unfold emittedTrades
    rw [hrun, List.map_map, List.map_map]
    congr 1
  · rw [hrun]

/-- Claim C3 counterexample: the same inputs under two uuid draws yield
trade sequences that differ (in the id field), so runs are not
byte-identical. -/
theorem C3_counterexample :
    (emittedTrades idsA ceStrategy ceConfig ceReg ceEval ceNows ceData
        "BTCUSDT").map (fun t => t.id) = [2] ∧
    (emittedTrades idsB ceStrategy ceConfig ceReg ceEval ceNows ceData
        "BTCUSDT").map (fun t => t.id) = [3] ∧
    ¬ (emittedTrades idsA ceStrategy ceConfig ceReg ceEval ceNows ceData
        "BTCUSDT"
       = emittedTrades idsB ceStrategy ceConfig ceReg ceEval ceNows ceData
        "BTCUSDT") :=
  ⟨by with_unfolding_all rfl, by with_unfolding_all rfl,
   by with_unfolding_all decide⟩

/-- Witness for the amended C3 with two concrete injective uuid streams. -/
theorem C3_witness :
    Function.Injective idsA ∧ Function.Injective idsB ∧
    ((emittedTrades idsA ceStrategy ceConfig ceReg ceEval ceNows ceData
        "BTCUSDT").map eraseId
      = (emittedTrades idsB ceStrategy ceConfig ceReg ceEval ceNows ceData
        "BTCUSDT").map eraseId ∧
     (run idsA ceStrategy ceConfig ceReg ceEval ceNows ceData
        "BTCUSDT").equityCurve
      = (run idsB ceStrategy ceConfig ceReg ceEval ceNows ceData
        "BTCUSDT").equityCurve) :=
  ⟨fun a b hab => hab, fun a b hab => Nat.succ_injective hab,
   C3_deterministic_modulo_ids idsA idsB (fun a b hab => hab)
     (fun a b hab => Nat.succ_injective hab) ceStrategy ceConfig ceReg ceEval
     ceNows ceData "BTCUSDT"⟩

/-- takeWhile over an all-true list is the list itself. -/
theorem takeWhile_all {α : Type} (p : α → Bool) :
    ∀ l : List α, (∀ x ∈ l, p x = true) → l.takeWhile p = l := by
  intro l
  induction l with
  | nil => simp
  | cons a t ih =>
      intro h
      simp [List.takeWhile_cons, h a (by simp)]
      exact fun x hx => h x (by simp [hx])

/-- dropWhile over an all-true list is empty. -/
theorem dropWhile_all {α : Type} (p : α → Bool) :
    ∀ l : List α, (∀ x ∈ l, p x = true) → l.dropWhile p = [] := by
  intro l
  induction l with
  | nil => simp
  | cons a t ih =>
      intro h
      simp [List.dropWhile_cons, h a (by simp)]
      exact fun x hx => h x (by simp [hx])

/-- takeWhile and dropWhile across an all-true prefix followed by a
failing element. -/
theorem takeWhile_append_stop {α : Type} (p : α → Bool) (x : α)
    (hx : p x = false) :
    ∀ (as rest : List α), (∀ y ∈ as, p y = true) →
      (as ++ x :: rest).takeWhile p = as ∧
      (as ++ x :: rest).dropWhile p = x :: rest := by
  intro as
  induction as with
  | nil =>
      intro rest _
      simp [List.takeWhile_cons, List.dropWhile_cons, hx]
  | cons a t ih =>
      intro rest h
      have ha := h a (by simp)
      obtain ⟨h1, h2⟩ := ih rest (fun y hy => h y (by simp [hy]))
      simp [List.takeWhile_cons, List.dropWhile_cons, ha, h1, h2]

/-- The code's group reduction and the spec's group reduction agree. -/
theorem aggregatePeriod_eq_spec (g : List OHLCV) (k : Int) :
    aggregatePeriod g k = specGroupCandle g k := rfl

/-- The aggregation loop computes the spec's consecutive-run grouping of
the accumulated group followed by the remaining candles. -/
theorem aggLoop_spec (targetMs : Int) :
    ∀ (xs acc : List OHLCV) (cur : Int), acc ≠ [] →
      (∀ a ∈ acc, periodKey targetMs a = cur) →
      aggLoop targetMs xs acc cur = specAggregate targetMs (acc ++ xs) := by
  intro xs
  induction xs with
  | nil =>
      intro acc cur hne hkeys
      rcases acc with _ | ⟨a, as⟩
      · exact absurd rfl hne
      · have hk : periodKey targetMs a = cur := hkeys a (by simp)
        have htake : as.takeWhile
            (fun x => periodKey targetMs x == periodKey targetMs a) = as :=
          takeWhile_all _ as (fun x hx => by
            simp [hkeys x (by simp [hx]), hk])
        have hdrop : as.dropWhile
            (fun x => periodKey targetMs x == periodKey targetMs a) = [] :=
          dropWhile_all _ as (fun x hx => by
            simp [hkeys x (by simp [hx]), hk])
        rw [aggLoop, if_neg (by simp), List.append_nil, specAggregate]
        try simp only []
        rw [htake, hdrop, hk, aggregatePeriod_eq_spec]
        simp [specAggregate]
  | cons x rest ih =>
      intro acc cur hne hkeys
      by_cases hk : periodKey targetMs x = cur
      · rw [aggLoop]
        try simp only []
        rw [if_neg (by simp [hk])]
        rw [ih (acc ++ [x]) cur (by simp)
            (fun a ha => by
              rcases List.mem_append.mp ha with h | h
              · exact hkeys a h
              · simp at h
                subst h
                exact hk)]
        rw [List.append_assoc]
        rfl
      · rcases acc with _ | ⟨a, as⟩
        · exact absurd rfl hne
        · rw [aggLoop]
          try simp only []
          rw [if_pos (by simp [hk])]
          rw [ih [x] (periodKey targetMs x) (by simp) (by simp)]
          have hka : periodKey targetMs a = cur := hkeys a (by simp)
          obtain ⟨ht, hd⟩ := takeWhile_append_stop
            (fun y => periodKey targetMs y == periodKey targetMs a) x
            (by simp [hka, hk]) as rest
            (fun y hy => by simp [hkeys y (by simp [hy]), hka])
          rw [show (a :: as) ++ x :: rest = a :: (as ++ x :: rest) from rfl,
              specAggregate]
          try simp only []
          rw [ht, hd, hka, aggregatePeriod_eq_spec]
          rfl

/-- On a strictly timestamp-sorted, minute-aligned series, the spec
grouping at 60 seconds puts every candle in its own group and reproduces
the series. -/
theorem specAggregate_singletons :
    ∀ l : List OHLCV, l.Pairwise (fun a b => a.timestamp < b.timestamp) →
      (∀ c ∈ l, periodKey 60000 c = c.timestamp) →
      specAggregate 60000 l = l := by
  intro l
  induction l with
  | nil => simp [specAggregate]
  | cons c rest ih =>
      intro hsort halign
      rw [specAggregate]
      try simp only []
      have hkc : periodKey 60000 c = c.timestamp := halign c (by simp)
      have hne : ∀ x ∈ rest,
          (periodKey 60000 x == periodKey 60000 c) = false := by
        intro x hx
        have h1 : c.timestamp < x.timestamp := (List.pairwise_cons.mp hsort).1 x hx
        have h2 : periodKey 60000 x = x.timestamp := halign x (by simp [hx])
        simp [h2, hkc]
        omega
      have htake : rest.takeWhile
          (fun x => periodKey 60000 x == periodKey 60000 c) = [] := by
        cases rest with
        | nil => simp
        | cons y t => simp [List.takeWhile_cons, hne y (by simp)]
      have hdrop : rest.dropWhile
          (fun x => periodKey 60000 x == periodKey 60000 c) = rest := by
        cases rest with
        | nil => simp
        | cons y t => simp [List.dropWhile_cons, hne y (by simp)]
      rw [htake, hdrop]
      rw [ih (List.pairwise_cons.mp hsort).2 (fun x hx => halign x (by simp [hx]))]
      have hgc : specGroupCandle [c] (periodKey 60000 c) = c := by
        cases c with
        | mk ts o h l cl v =>
            simp only [specGroupCandle, List.head?_cons, List.getLast?_singleton,
              List.map_cons, List.map_nil, List.sum_cons, List.sum_nil]
            simp only [periodKey] at hkc ⊢
            simp [hkc]
      rw [hgc]

/-- The spec grouping preserves total volume. -/
theorem specAggregate_volume (Δ : Int) :
    ∀ (n : ℕ) (l : List OHLCV), l.length ≤ n →
      ((specAggregate Δ l).map (fun c => c.volume)).sum
        = (l.map (fun c => c.volume)).sum := by
  intro n
  induction n with
  | zero =>
      intro l hl
      rw [List.length_eq_zero.mp (Nat.le_zero.mp hl)]
      simp [specAggregate]
  | succ m ih =>
      intro l hl
      cases l with
      | nil => simp [specAggregate]
      | cons c rest =>
          rw [specAggregate]
          try simp only []
          rw [List.map_cons, List.sum_cons]
          rw [ih (rest.dropWhile
              (fun x => periodKey Δ x == periodKey Δ c))
            (by
              have := length_dropWhile_le
                (fun x => periodKey Δ x == periodKey Δ c) rest
              simp only [List.length_cons] at hl
              omega)]
          have hgv : (specGroupCandle
              (c :: rest.takeWhile (fun x => periodKey Δ x == periodKey Δ c))
              (periodKey Δ c)).volume
              = c.volume + ((rest.takeWhile
                  (fun x => periodKey Δ x == periodKey Δ c)).map
                    (fun c => c.volume)).sum := by
            simp [specGroupCandle]
          rw [hgv]
          conv_rhs =>
            rw [show rest
                = rest.takeWhile (fun x => periodKey Δ x == periodKey Δ c)
                  ++ rest.dropWhile (fun x => periodKey Δ x == periodKey Δ c)
              from (List.takeWhile_append_dropWhile
                (fun x => periodKey Δ x == periodKey Δ c) rest).symm]
          simp only [List.map_cons, List.map_append, List.sum_cons,
            List.sum_append]
          ring

/-- Claim C8: on a strictly timestamp-sorted, minute-aligned 1m series,
aggregateOHLCV to any target timeframe equals the spec's per-group
reduction (grouping by floor(ts/targetMs)·targetMs, open of the first,
close of the last, max high, min low, summed volume, group-start
timestamp), and total volume is preserved. -/
theorem C8_aggregation_law (data : List OHLCV) (targetTimeframe : Timeframe)
    (hsort : data.Pairwise (fun a b => a.timestamp < b.timestamp))
    (halign : ∀ c ∈ data, periodKey 60000 c = c.timestamp) :
    aggregateOHLCV data Timeframe.m1 targetTimeframe
      = specAggregate (timeframeToMs targetTimeframe) data ∧
    ((aggregateOHLCV data Timeframe.m1 targetTimeframe).map
        (fun c => c.volume)).sum
      = (data.map (fun c => c.volume)).sum := by
  have heq : aggregateOHLCV data Timeframe.m1 targetTimeframe
      = specAggregate (timeframeToMs targetTimeframe) data := by
    cases data with
    | nil => simp [aggregateOHLCV, specAggregate]
    | cons d rest =>
        rw [aggregateOHLCV]
        try simp only []
        split
        · rename_i hle
          have h60 : timeframeToMs targetTimeframe = 60000 := by
            revert hle
            cases targetTimeframe <;> decide
          rw [h60]
          exact (specAggregate_singletons (d :: rest) hsort halign).symm
        · rw [aggLoop]
          try simp only []
          rw [if_neg (by simp)]
          exact aggLoop_spec (timeframeToMs targetTimeframe) rest [d]
            (periodKey (timeframeToMs targetTimeframe) d) (by simp) (by simp)
  refine ⟨heq, ?_⟩
  rw [heq]
  exact specAggregate_volume (timeframeToMs targetTimeframe) data.length data
    (Nat.le_refl _)

/-- Witness for C8 on three aligned ascending minute candles aggregated to
five minutes. -/
theorem C8_witness :
    (ceData.Pairwise (fun a b => a.timestamp < b.timestamp) ∧
     ∀ c ∈ ceData, periodKey 60000 c = c.timestamp) ∧
    (aggregateOHLCV ceData Timeframe.m1 Timeframe.m5
       = specAggregate (timeframeToMs Timeframe.m5) ceData ∧
     ((aggregateOHLCV ceData Timeframe.m1 Timeframe.m5).map
         (fun c => c.volume)).sum
       = (ceData.map (fun c => c.volume)).sum) :=
  ⟨⟨by with_unfolding_all decide, by with_unfolding_all decide⟩,
   C8_aggregation_law ceData Timeframe.m5 (by with_unfolding_all decide)
     (by with_unfolding_all decide)⟩

end CryptoPanel
